import Mathlib

/-!
# RGB underglow engine (`app/src/rgb_underglow.c`)

A shallow embedding of the underglow animation engine: the HSB to RGB colour
converter, the four effect generators, the tick, and the adjustment API.

Machine integers are natural numbers with an explicit reduction modulo `2^8`
or `2^16` wherever the C code stores into a `u8_t` or `u16_t` field.  The
`double` arithmetic of `hsb_to_rgb` is modelled twice: `hsb_to_rgb_f64` rounds
every operation to binary64, as the machine does, and is the converter the effect
generators call; `hsb_to_rgb` takes the arithmetic exactly, over `ℚ`.  In both the
conversion of a `double` to a `u8_t` channel is the C conversion (truncation
toward zero).
-/

namespace Underglow

/-! ## Data model -/

/-- The `struct led_hsb` of the source: `h` is a `u16_t`, `s` and `b` are `u8_t`. -/
structure led_hsb where
  h : Nat
  s : Nat
  b : Nat
deriving DecidableEq, Repr

/-- The `struct led_rgb` of the LED strip driver: three `u8_t` channels. -/
structure led_rgb where
  r : Nat
  g : Nat
  b : Nat
deriving DecidableEq, Repr

/-- The `struct rgb_underglow_state` of the source.  The field `on` of the source
is named `on_` here, `on` being reserved. -/
structure rgb_underglow_state where
  hue : Nat
  saturation : Nat
  brightness : Nat
  animation_speed : Nat
  current_effect : Nat
  animation_step : Nat
  on_ : Bool
deriving DecidableEq, Repr

/-- Storing a C `int` into a `u8_t`: reduction modulo `2^8`. -/
def to_u8 (x : Int) : Nat := (x % 256).toNat

/-- Storing a C `int` into a `u16_t`: reduction modulo `2^16`. -/
def to_u16 (x : Int) : Nat := (x % 65536).toNat

/-- The `struct led_hsb hsb = { hue, sat, brt }` initialiser from three `int`s. -/
def mk_hsb (hue sat brt : Int) : led_hsb :=
  { h := to_u16 hue, s := to_u8 sat, b := to_u8 brt }

/-! ## Colour converter -/

/-- Conversion of a `double` to an integer type: the fractional part is discarded
(truncation toward zero). -/
def trunc (x : ℚ) : Int := if 0 ≤ x then ⌊x⌋ else ⌈x⌉

/-- The three `double` components `(r, g, b)` that `hsb_to_rgb` selects in its
`switch (i % 6)`, before they are scaled by 255. -/
def hsb_components (hsb : led_hsb) : ℚ × ℚ × ℚ :=
  let i : Nat := (hsb.h / 60) % 256
  let v : ℚ := (hsb.b : ℚ) / 100
  let s : ℚ := (hsb.s : ℚ) / 100
  let f : ℚ := (hsb.h : ℚ) / 360 * 6 - (i : ℚ)
  let p : ℚ := v * (1 - s)
  let q : ℚ := v * (1 - f * s)
  let t : ℚ := v * (1 - (1 - f) * s)
  match i % 6 with
  | 0 => (v, t, p)
  | 1 => (q, v, p)
  | 2 => (p, v, t)
  | 3 => (p, q, v)
  | 4 => (t, p, v)
  | _ => (v, p, q)

/-- The integer value of each channel expression `r*255`, `g*255`, `b*255` after
the conversion from `double`, before it is stored in the `u8_t` field. -/
def hsb_channels (hsb : led_hsb) : Int × Int × Int :=
  let c := hsb_components hsb
  (trunc (c.1 * 255), trunc (c.2.1 * 255), trunc (c.2.2 * 255))

/-- The `hsb_to_rgb` of the source, its arithmetic taken exactly. -/
def hsb_to_rgb (hsb : led_hsb) : led_rgb :=
  let c := hsb_channels hsb
  { r := to_u8 c.1, g := to_u8 c.2.1, b := to_u8 c.2.2 }

/-- The components of the standard HSB conversion as the specification words
them: `i = floor(hue/60) mod 6`, `v = brightness/100`, `s = saturation/100`,
`f = hue/60 - floor(hue/60)`, `p = v(1-s)`, `q = v(1-f·s)`, `t = v(1-(1-f)·s)`,
and `(r,g,b)` selected by `i`. -/
def spec_components (hue sat brt : Nat) : ℚ × ℚ × ℚ :=
  let i : Int := ⌊(hue : ℚ) / 60⌋ % 6
  let v : ℚ := (brt : ℚ) / 100
  let s : ℚ := (sat : ℚ) / 100
  let f : ℚ := (hue : ℚ) / 60 - (⌊(hue : ℚ) / 60⌋ : ℚ)
  let p : ℚ := v * (1 - s)
  let q : ℚ := v * (1 - f * s)
  let t : ℚ := v * (1 - (1 - f) * s)
  match i.toNat with
  | 0 => (v, t, p)
  | 1 => (q, v, p)
  | 2 => (p, v, t)
  | 3 => (p, q, v)
  | 4 => (t, p, v)
  | _ => (v, p, q)

/-! ## Colour converter in binary64 arithmetic

The `double` arithmetic of `hsb_to_rgb` as an IEEE 754 machine carries it out:
every operation is computed exactly and then rounded to the nearest binary64
value, ties to even.  Conversions of integers to `double` are exact. -/

/-- Rounding of a rational to the nearest integer, ties to the even one. -/
def round_even (q : ℚ) : Int :=
  let n := ⌊q⌋
  if q - n < 1 / 2 then n
  else if 1 / 2 < q - n then n + 1
  else if n % 2 = 0 then n else n + 1

/-- Rounding to the nearest `double`: 53 significant bits, round to nearest, ties
to even.  The exponent range is not bounded: on the domain of the converter its
values lie between 2^-14 and 2^8 in magnitude or are 0, far from overflow and from
the subnormal range. -/
def f64 (x : ℚ) : ℚ :=
  if x = 0 then 0
  else (round_even (x / 2 ^ (Int.log 2 |x| - 52)) : ℚ) * 2 ^ (Int.log 2 |x| - 52)

/-- The three `double` components `(r, g, b)` that `hsb_to_rgb` selects in its
`switch (i % 6)`, each operation of the source rounded to `double`. -/
def hsb_components_f64 (hsb : led_hsb) : ℚ × ℚ × ℚ :=
  let i : Nat := (hsb.h / 60) % 256
  let v : ℚ := f64 ((hsb.b : ℚ) / 100)
  let s : ℚ := f64 ((hsb.s : ℚ) / 100)
  let f : ℚ := f64 (f64 (f64 ((hsb.h : ℚ) / 360) * 6) - (i : ℚ))
  let p : ℚ := f64 (v * f64 (1 - s))
  let q : ℚ := f64 (v * f64 (1 - f64 (f * s)))
  let t : ℚ := f64 (v * f64 (1 - f64 (f64 (1 - f) * s)))
  match i % 6 with
  | 0 => (v, t, p)
  | 1 => (q, v, p)
  | 2 => (p, v, t)
  | 3 => (p, q, v)
  | 4 => (t, p, v)
  | _ => (v, p, q)

/-- The integer value of each channel expression `r*255`, `g*255`, `b*255`, the
product rounded to `double` and then converted to an integer type, before it is
stored in the `u8_t` field. -/
def hsb_channels_f64 (hsb : led_hsb) : Int × Int × Int :=
  let c := hsb_components_f64 hsb
  (trunc (f64 (c.1 * 255)), trunc (f64 (c.2.1 * 255)), trunc (f64 (c.2.2 * 255)))

/-- The `hsb_to_rgb` of the source in binary64 arithmetic. -/
def hsb_to_rgb_f64 (hsb : led_hsb) : led_rgb :=
  let c := hsb_channels_f64 hsb
  { r := to_u8 c.1, g := to_u8 c.2.1, b := to_u8 c.2.2 }

/-- The components of the conversion in the words of the specification, in the
arithmetic of the code: `i = floor(hue/60) mod 6`, `v = brightness/100`,
`s = saturation/100`, `f = hue/360·6 - floor(hue/60)`, `p = v(1-s)`,
`q = v(1-f·s)`, `t = v(1-(1-f)·s)`, every operation rounded to `double`, and
`(r,g,b)` selected by `i`. -/
def spec_components_f64 (hue sat brt : Nat) : ℚ × ℚ × ℚ :=
  let i : Int := ⌊(hue : ℚ) / 60⌋ % 6
  let v : ℚ := f64 ((brt : ℚ) / 100)
  let s : ℚ := f64 ((sat : ℚ) / 100)
  let f : ℚ := f64 (f64 (f64 ((hue : ℚ) / 360) * 6) - (⌊(hue : ℚ) / 60⌋ : ℚ))
  let p : ℚ := f64 (v * f64 (1 - s))
  let q : ℚ := f64 (v * f64 (1 - f64 (f * s)))
  let t : ℚ := f64 (v * f64 (1 - f64 (f64 (1 - f) * s)))
  match i.toNat with
  | 0 => (v, t, p)
  | 1 => (q, v, p)
  | 2 => (p, v, t)
  | 3 => (p, q, v)
  | 4 => (t, p, v)
  | _ => (v, p, q)

/-- A bound on the rounding error of one `double` operation on a value of
magnitude at most 8: `8 · 2^-53 ≤ 10^-15`. -/
def eps : ℚ := 1 / 10 ^ 15

/-! ## The globals and the configuration -/

/-- Build-time constants that the source takes from the device tree and from
Kconfig: `STRIP_NUM_PIXELS` and the three `CONFIG_ZMK_RGB_UNDERGLOW_*_STEP`s. -/
structure Config where
  STRIP_NUM_PIXELS : Nat
  HUE_STEP : Int
  SAT_STEP : Int
  BRT_STEP : Int
deriving DecidableEq, Repr

/-- The `ENODEV` of the `errno.h` of the C library. -/
def ENODEV : Int := 19

/-- The `EINVAL` of the `errno.h` of the C library. -/
def EINVAL : Int := 22

/-- The enumerator `UNDERGLOW_EFFECT_NUMBER` of `enum rgb_underglow_effect`. -/
def UNDERGLOW_EFFECT_NUMBER : Nat := 4

/-- The pixel `(struct led_rgb){ r: 0, g: 0, b: 0 }`. -/
def black : led_rgb := { r := 0, g := 0, b := 0 }

/-- The globals of the source together with the two collaborators they drive:
`state`, `led_strip` (true when the pointer is not null), `pixels`, whether the
timer `underglow_tick` is running, and the frame last handed to the strip by
`led_strip_update_rgb`. -/
structure System where
  state : rgb_underglow_state
  led_strip : Bool
  pixels : List led_rgb
  timer : Bool
  strip_out : List led_rgb
deriving DecidableEq, Repr

/-- A `for (int i=0; i<STRIP_NUM_PIXELS; i++) pixels[i] = f i;` loop over the
array `pixels[STRIP_NUM_PIXELS]`: every entry is overwritten, in index order. -/
def fill_pixels (n : Nat) (f : Nat → led_rgb) : List led_rgb :=
  (List.range n).map f

/-- The call `led_strip_update_rgb(led_strip, pixels, STRIP_NUM_PIXELS)`. -/
def led_strip_update_rgb (sys : System) : System :=
  { sys with strip_out := sys.pixels }

/-! ## Effect generators -/

/-- The HSB triple that `zmk_rgb_underglow_effect_solid` builds for a pixel. -/
def solid_hsb (st : rgb_underglow_state) (_i : Nat) : led_hsb :=
  mk_hsb st.hue st.saturation st.brightness

/-- The HSB triple that `zmk_rgb_underglow_effect_breathe` builds for a pixel:
the brightness is `abs(state.animation_step - 1200) / 12`. -/
def breathe_hsb (st : rgb_underglow_state) (_i : Nat) : led_hsb :=
  mk_hsb st.hue st.saturation
    (Int.tdiv (Int.natAbs ((st.animation_step : Int) - 1200) : Int) 12)

/-- The HSB triple that `zmk_rgb_underglow_effect_spectrum` builds for a pixel. -/
def spectrum_hsb (st : rgb_underglow_state) (_i : Nat) : led_hsb :=
  mk_hsb st.animation_step st.saturation st.brightness

/-- The HSB triple that `zmk_rgb_underglow_effect_swirl` builds for pixel `i`:
the hue is `(360 / STRIP_NUM_PIXELS * i + state.animation_step) % 360`. -/
def swirl_hsb (cfg : Config) (st : rgb_underglow_state) (i : Nat) : led_hsb :=
  mk_hsb (Int.tmod (Int.tdiv 360 (cfg.STRIP_NUM_PIXELS : Int) * (i : Int)
      + (st.animation_step : Int)) 360)
    st.saturation st.brightness

/-- The `zmk_rgb_underglow_effect_solid` of the source. -/
def zmk_rgb_underglow_effect_solid (cfg : Config) (sys : System) : System :=
  { sys with
    pixels := fill_pixels cfg.STRIP_NUM_PIXELS
      (fun i => hsb_to_rgb_f64 (solid_hsb sys.state i)) }

/-- The `zmk_rgb_underglow_effect_breathe` of the source. -/
def zmk_rgb_underglow_effect_breathe (cfg : Config) (sys : System) : System :=
  let st := sys.state
  let step1 := to_u16 ((st.animation_step : Int) + (st.animation_speed : Int) * 10)
  let step2 := if step1 > 2400 then 0 else step1
  { sys with
    pixels := fill_pixels cfg.STRIP_NUM_PIXELS
      (fun i => hsb_to_rgb_f64 (breathe_hsb st i))
    state := { st with animation_step := step2 } }

/-- The `zmk_rgb_underglow_effect_spectrum` of the source. -/
def zmk_rgb_underglow_effect_spectrum (cfg : Config) (sys : System) : System :=
  let st := sys.state
  let step1 := to_u16 ((st.animation_step : Int) + (st.animation_speed : Int))
  { sys with
    pixels := fill_pixels cfg.STRIP_NUM_PIXELS
      (fun i => hsb_to_rgb_f64 (spectrum_hsb st i))
    state := { st with animation_step := step1 % 360 } }

/-- The `zmk_rgb_underglow_effect_swirl` of the source. -/
def zmk_rgb_underglow_effect_swirl (cfg : Config) (sys : System) : System :=
  let st := sys.state
  let step1 := to_u16 ((st.animation_step : Int) + (st.animation_speed : Int) * 2)
  { sys with
    pixels := fill_pixels cfg.STRIP_NUM_PIXELS
      (fun i => hsb_to_rgb_f64 (swirl_hsb cfg st i))
    state := { st with animation_step := step1 % 360 } }

/-! ## Tick and initialisation -/

/-- The `zmk_rgb_underglow_tick` of the source: dispatch on `current_effect`
(no case is taken for a value outside the enumeration), then push the frame. -/
def zmk_rgb_underglow_tick (cfg : Config) (sys : System) : System :=
  let sys1 :=
    match sys.state.current_effect with
    | 0 => zmk_rgb_underglow_effect_solid cfg sys
    | 1 => zmk_rgb_underglow_effect_breathe cfg sys
    | 2 => zmk_rgb_underglow_effect_spectrum cfg sys
    | 3 => zmk_rgb_underglow_effect_swirl cfg sys
    | _ => sys
  led_strip_update_rgb sys1

/-- The globals before `zmk_rgb_underglow_init` runs: C zero-initialises them. -/
def boot (cfg : Config) : System :=
  { state := { hue := 0, saturation := 0, brightness := 0, animation_speed := 0,
               current_effect := 0, animation_step := 0, on_ := false }
    led_strip := false
    pixels := List.replicate cfg.STRIP_NUM_PIXELS black
    timer := false
    strip_out := [] }

/-- The `zmk_rgb_underglow_init` of the source; `found` tells whether
`device_get_binding(STRIP_LABEL)` returned a device. -/
def zmk_rgb_underglow_init (found : Bool) (sys : System) : Int × System :=
  if found then
    (0, { sys with
          led_strip := true
          state := { hue := 0, saturation := 100, brightness := 100,
                     animation_speed := 3, current_effect := 0,
                     animation_step := 0, on_ := true }
          timer := true })
  else
    (-EINVAL, { sys with led_strip := false })

/-! ## Adjustment API

Each function returns the C return value together with the globals after the
call.  The `int` argument `direction` is an integer; the sum is reduced modulo
`2^8` or `2^16` when it is stored back into the field. -/

/-- The `zmk_rgb_underglow_cycle_effect` of the source. -/
def zmk_rgb_underglow_cycle_effect (direction : Int) (sys : System) : Int × System :=
  if !sys.led_strip then (-ENODEV, sys)
  else if sys.state.current_effect = 0 ∧ direction < 0 then
    (0, { sys with
          state := { sys.state with current_effect := UNDERGLOW_EFFECT_NUMBER - 1 } })
  else
    let e1 := to_u8 ((sys.state.current_effect : Int) + direction)
    let e2 := if e1 ≥ UNDERGLOW_EFFECT_NUMBER then 0 else e1
    (0, { sys with
          state := { sys.state with current_effect := e2, animation_step := 0 } })

/-- The `zmk_rgb_underglow_toggle` of the source. -/
def zmk_rgb_underglow_toggle (cfg : Config) (sys : System) : Int × System :=
  if !sys.led_strip then (-ENODEV, sys)
  else
    let on1 := !sys.state.on_
    if on1 then
      (0, { sys with
            state := { sys.state with on_ := on1, animation_step := 0 }
            timer := true })
    else
      let sys1 : System :=
        { sys with
          state := { sys.state with on_ := on1 }
          pixels := fill_pixels cfg.STRIP_NUM_PIXELS (fun _ => black) }
      (0, { led_strip_update_rgb sys1 with timer := false })

/-- The `zmk_rgb_underglow_change_hue` of the source. -/
def zmk_rgb_underglow_change_hue (cfg : Config) (direction : Int) (sys : System) :
    Int × System :=
  if !sys.led_strip then (-ENODEV, sys)
  else if sys.state.hue = 0 ∧ direction < 0 then
    (0, { sys with state := { sys.state with hue := 350 } })
  else
    let h1 := to_u16 ((sys.state.hue : Int) + direction * cfg.HUE_STEP)
    let h2 := if h1 > 350 then 0 else h1
    (0, { sys with state := { sys.state with hue := h2 } })

/-- The `zmk_rgb_underglow_change_sat` of the source. -/
def zmk_rgb_underglow_change_sat (cfg : Config) (direction : Int) (sys : System) :
    Int × System :=
  if !sys.led_strip then (-ENODEV, sys)
  else if sys.state.saturation = 0 ∧ direction < 0 then (0, sys)
  else
    let s1 := to_u8 ((sys.state.saturation : Int) + direction * cfg.SAT_STEP)
    let s2 := if s1 > 100 then 100 else s1
    (0, { sys with state := { sys.state with saturation := s2 } })

/-- The `zmk_rgb_underglow_change_brt` of the source. -/
def zmk_rgb_underglow_change_brt (cfg : Config) (direction : Int) (sys : System) :
    Int × System :=
  if !sys.led_strip then (-ENODEV, sys)
  else if sys.state.brightness = 0 ∧ direction < 0 then (0, sys)
  else
    let b1 := to_u8 ((sys.state.brightness : Int) + direction * cfg.BRT_STEP)
    let b2 := if b1 > 100 then 100 else b1
    (0, { sys with state := { sys.state with brightness := b2 } })

/-- The `zmk_rgb_underglow_change_spd` of the source. -/
def zmk_rgb_underglow_change_spd (direction : Int) (sys : System) : Int × System :=
  if !sys.led_strip then (-ENODEV, sys)
  else if sys.state.animation_speed = 1 ∧ direction < 0 then (0, sys)
  else
    let a1 := to_u8 ((sys.state.animation_speed : Int) + direction)
    let a2 := if a1 > 5 then 5 else a1
    (0, { sys with state := { sys.state with animation_speed := a2 } })

/-! ## Executions -/

/-- The states the program can be in: the state after `zmk_rgb_underglow_init`
ran on the zero-initialised globals (with or without a strip device), and every
state obtained from such a state by a call of the adjustment API or by a tick
of the timer, a tick firing only while the timer is running. -/
inductive Reachable (cfg : Config) : System → Prop where
  | init (found : Bool) : Reachable cfg (zmk_rgb_underglow_init found (boot cfg)).2
  | cycle_effect (d : Int) {sys : System} :
      Reachable cfg sys → Reachable cfg (zmk_rgb_underglow_cycle_effect d sys).2
  | toggle {sys : System} :
      Reachable cfg sys → Reachable cfg (zmk_rgb_underglow_toggle cfg sys).2
  | change_hue (d : Int) {sys : System} :
      Reachable cfg sys → Reachable cfg (zmk_rgb_underglow_change_hue cfg d sys).2
  | change_sat (d : Int) {sys : System} :
      Reachable cfg sys → Reachable cfg (zmk_rgb_underglow_change_sat cfg d sys).2
  | change_brt (d : Int) {sys : System} :
      Reachable cfg sys → Reachable cfg (zmk_rgb_underglow_change_brt cfg d sys).2
  | change_spd (d : Int) {sys : System} :
      Reachable cfg sys → Reachable cfg (zmk_rgb_underglow_change_spd d sys).2
  | tick {sys : System} :
      Reachable cfg sys → sys.timer = true → Reachable cfg (zmk_rgb_underglow_tick cfg sys)

/-- The state after `n` consecutive ticks. -/
def ticks (cfg : Config) : Nat → System → System
  | 0, sys => sys
  | n + 1, sys => ticks cfg n (zmk_rgb_underglow_tick cfg sys)

/-- A configuration: a strip of seven pixels, steps of ten. -/
def sample_cfg : Config :=
  { STRIP_NUM_PIXELS := 7, HUE_STEP := 10, SAT_STEP := 10, BRT_STEP := 10 }

/-- The globals right after a successful `zmk_rgb_underglow_init`. -/
def sample_started : System := (zmk_rgb_underglow_init true (boot sample_cfg)).2

/-- A running state with the Swirl effect selected, at animation step 356. -/
def sample_swirl : System :=
  { sample_started with
    state := { sample_started.state with current_effect := 3, animation_step := 356 } }

/-! ## Domain invariant and further sample inputs -/

/-- The HSB triple that a tick passes to `hsb_to_rgb` for pixel `i`: the triple of
the generator that `zmk_rgb_underglow_tick` selects for `current_effect` (the last
case stands for `UNDERGLOW_EFFECT_SWIRL`). -/
def tick_hsb (cfg : Config) (st : rgb_underglow_state) (i : Nat) : led_hsb :=
  match st.current_effect with
  | 0 => solid_hsb st i
  | 1 => breathe_hsb st i
  | 2 => spectrum_hsb st i
  | _ => swirl_hsb cfg st i

/-- The domain invariant of the lighting state: hue, saturation and brightness
within their bounds, the effect among the four, and the animation step within
the range of the selected effect. -/
def InDomain (sys : System) : Prop :=
  sys.state.hue ≤ 350 ∧ sys.state.saturation ≤ 100 ∧ sys.state.brightness ≤ 100 ∧
  sys.state.current_effect ≤ 3 ∧
  (sys.state.current_effect = 0 → sys.state.animation_step = 0) ∧
  (sys.state.current_effect = 1 → sys.state.animation_step ≤ 2400) ∧
  (2 ≤ sys.state.current_effect → sys.state.animation_step < 360)

/-- A configuration whose steps do not divide the ranges: hue step 100,
saturation and brightness steps 30. -/
def coarse_cfg : Config :=
  { STRIP_NUM_PIXELS := 7, HUE_STEP := 100, SAT_STEP := 30, BRT_STEP := 30 }

/-- The globals right after a successful `zmk_rgb_underglow_init` under
`coarse_cfg`. -/
def coarse_started : System := (zmk_rgb_underglow_init true (boot coarse_cfg)).2

/-- The state after four calls `zmk_rgb_underglow_change_hue(-1)` from startup
under `coarse_cfg`: the hue went 0, 350, 250, 150, 50. -/
def coarse_hue_50 : System :=
  (zmk_rgb_underglow_change_hue coarse_cfg (-1)
    (zmk_rgb_underglow_change_hue coarse_cfg (-1)
      (zmk_rgb_underglow_change_hue coarse_cfg (-1)
        (zmk_rgb_underglow_change_hue coarse_cfg (-1) coarse_started).2).2).2).2

/-- The state after three calls `zmk_rgb_underglow_change_sat(-1)` from startup
under `coarse_cfg`: the saturation went 100, 70, 40, 10. -/
def coarse_sat_10 : System :=
  (zmk_rgb_underglow_change_sat coarse_cfg (-1)
    (zmk_rgb_underglow_change_sat coarse_cfg (-1)
      (zmk_rgb_underglow_change_sat coarse_cfg (-1) coarse_started).2).2).2

/-- The state after three calls `zmk_rgb_underglow_change_brt(-1)` from startup
under `coarse_cfg`: the brightness went 100, 70, 40, 10. -/
def coarse_brt_10 : System :=
  (zmk_rgb_underglow_change_brt coarse_cfg (-1)
    (zmk_rgb_underglow_change_brt coarse_cfg (-1)
      (zmk_rgb_underglow_change_brt coarse_cfg (-1) coarse_started).2).2).2

/-- A running state with the Breathe effect selected, at animation step 2370. -/
def sample_breathe : System :=
  { sample_started with
    state := { sample_started.state with current_effect := 1, animation_step := 2370 } }

/-! # Theorems -/

/-! ## Colour converter: auxiliary facts -/

theorem to_u8_of_range {x : Int} (h0 : 0 ≤ x) (h1 : x ≤ 255) : (to_u8 x : Int) = x := by
  unfold to_u8
  rw [Int.emod_eq_of_lt h0 (by omega)]
  exact Int.toNat_of_nonneg h0

theorem trunc_scaled_range {c : ℚ} (h0 : 0 ≤ c) (h1 : c ≤ 1) :
    0 ≤ trunc (c * 255) ∧ trunc (c * 255) ≤ 255 ∧ trunc (c * 255) = ⌊c * 255⌋ := by
  have hc : (0 : ℚ) ≤ c * 255 := by positivity
  have ht : trunc (c * 255) = ⌊c * 255⌋ := by simp [trunc, hc]
  refine ⟨?_, ?_, ht⟩
  · rw [ht]; exact Int.floor_nonneg.mpr hc
  · rw [ht]
    have h2 : ((⌊c * 255⌋ : Int) : ℚ) ≤ c * 255 := Int.floor_le _
    have h3 : ((⌊c * 255⌋ : Int) : ℚ) ≤ ((255 : Int) : ℚ) := by push_cast; linarith
    exact_mod_cast h3

/-- In the domain of the converter the sector index is `hue / 60`, below 6, and the
fraction `f` lies in `[0, 1)`. -/
theorem sector_facts {h : Nat} (hh : h < 360) :
    (h / 60) % 256 = h / 60 ∧ h / 60 < 6 ∧
    (0 : ℚ) ≤ (h : ℚ) / 360 * 6 - ((h / 60 : Nat) : ℚ) ∧
    (h : ℚ) / 360 * 6 - ((h / 60 : Nat) : ℚ) < 1 := by
  have h6 : h / 60 < 6 := by omega
  refine ⟨by omega, h6, ?_, ?_⟩
  · have : 60 * (h / 60) ≤ h := Nat.mul_div_le h 60
    have h2 : ((60 * (h / 60) : Nat) : ℚ) ≤ (h : ℚ) := by exact_mod_cast this
    push_cast at h2
    linarith
  · have : h < 60 * (h / 60) + 60 := by omega
    have h2 : (h : ℚ) < ((60 * (h / 60) + 60 : Nat) : ℚ) := by exact_mod_cast this
    push_cast at h2
    linarith

theorem hsb_components_range (hsb : led_hsb)
    (hh : hsb.h < 360) (hs : hsb.s ≤ 100) (hb : hsb.b ≤ 100) :
    (0 ≤ (hsb_components hsb).1 ∧ (hsb_components hsb).1 ≤ 1) ∧
    (0 ≤ (hsb_components hsb).2.1 ∧ (hsb_components hsb).2.1 ≤ 1) ∧
    (0 ≤ (hsb_components hsb).2.2 ∧ (hsb_components hsb).2.2 ≤ 1) := by
  obtain ⟨hi, h6, hf0, hf1⟩ := sector_facts hh
  have hv0 : (0 : ℚ) ≤ (hsb.b : ℚ) / 100 := by positivity
  have hv1 : (hsb.b : ℚ) / 100 ≤ 1 := by
    have : (hsb.b : ℚ) ≤ 100 := by exact_mod_cast hb
    linarith
  have hs0 : (0 : ℚ) ≤ (hsb.s : ℚ) / 100 := by positivity
  have hs1 : (hsb.s : ℚ) / 100 ≤ 1 := by
    have : (hsb.s : ℚ) ≤ 100 := by exact_mod_cast hs
    linarith
  unfold hsb_components
  simp only [hi]
  generalize (hsb.b : ℚ) / 100 = v at *
  generalize (hsb.s : ℚ) / 100 = s at *
  generalize (hsb.h : ℚ) / 360 * 6 - ((hsb.h / 60 : Nat) : ℚ) = f at *
  have hfs0 : 0 ≤ f * s := mul_nonneg hf0 hs0
  have hfs1 : f * s ≤ 1 := by nlinarith
  have hgs0 : 0 ≤ (1 - f) * s := mul_nonneg (by linarith) hs0
  have hgs1 : (1 - f) * s ≤ 1 := by nlinarith
  have hp0 : 0 ≤ v * (1 - s) := mul_nonneg hv0 (by linarith)
  have hp1 : v * (1 - s) ≤ 1 := by nlinarith
  have hq0 : 0 ≤ v * (1 - f * s) := mul_nonneg hv0 (by linarith)
  have hq1 : v * (1 - f * s) ≤ 1 := by nlinarith
  have ht0 : 0 ≤ v * (1 - (1 - f) * s) := mul_nonneg hv0 (by linarith)
  have ht1 : v * (1 - (1 - f) * s) ≤ 1 := by nlinarith
  generalize hsb.h / 60 = i at *
  interval_cases i <;> simp <;> exact ⟨⟨by assumption, by assumption⟩, ⟨by assumption, by assumption⟩, by assumption, by assumption⟩

theorem hsb_channels_range (hsb : led_hsb)
    (hh : hsb.h < 360) (hs : hsb.s ≤ 100) (hb : hsb.b ≤ 100) :
    (0 ≤ (hsb_channels hsb).1 ∧ (hsb_channels hsb).1 ≤ 255) ∧
    (0 ≤ (hsb_channels hsb).2.1 ∧ (hsb_channels hsb).2.1 ≤ 255) ∧
    (0 ≤ (hsb_channels hsb).2.2 ∧ (hsb_channels hsb).2.2 ≤ 255) := by
  obtain ⟨⟨a0, a1⟩, ⟨b0, b1⟩, c0, c1⟩ := hsb_components_range hsb hh hs hb
  obtain ⟨ra0, ra1, _⟩ := trunc_scaled_range a0 a1
  obtain ⟨rb0, rb1, _⟩ := trunc_scaled_range b0 b1
  obtain ⟨rc0, rc1, _⟩ := trunc_scaled_range c0 c1
  exact ⟨⟨ra0, ra1⟩, ⟨rb0, rb1⟩, rc0, rc1⟩

theorem hsb_components_gray (hue brt : Nat) :
    hsb_components ⟨hue, 0, brt⟩ = ((brt : ℚ) / 100, (brt : ℚ) / 100, (brt : ℚ) / 100) := by
  unfold hsb_components
  simp only [Nat.cast_zero, zero_div, mul_zero, sub_zero, mul_one]
  split <;> rfl

theorem hsb_components_black (hue sat : Nat) :
    hsb_components ⟨hue, sat, 0⟩ = (0, 0, 0) := by
  unfold hsb_components
  simp only [Nat.cast_zero, zero_div, zero_mul]
  split <;> rfl

theorem hsb_components_eq_spec (hue sat brt : Nat) (hh : hue < 360) :
    hsb_components ⟨hue, sat, brt⟩ = spec_components hue sat brt := by
  have hfl : ⌊(hue : ℚ) / 60⌋ = ((hue / 60 : Nat) : Int) := by
    have := Rat.floor_natCast_div_natCast hue 60
    simpa using this
  have h6 : hue / 60 < 6 := by omega
  have hf : (hue : ℚ) / 360 * 6 = (hue : ℚ) / 60 := by ring
  unfold hsb_components spec_components
  simp only [hfl, hf]
  have hi : hue / 60 % 256 = hue / 60 := by omega
  rw [hi]
  generalize hue / 60 = i at *
  interval_cases i <;> simp

/-- Claim C1: for every hue in [0,360), saturation in [0,100] and brightness in
[0,100], each channel expression of the converter, computed exactly and truncated
as the C conversion does, is an integer in [0,255], so the stored 8 bit channel is
that integer and is at most 255; at saturation 0 the three channels are equal, and
at brightness 0 the pixel is (0,0,0). -/
theorem hsb_to_rgb_range_gray_black (hue sat brt : Nat)
    (hh : hue < 360) (hs : sat ≤ 100) (hb : brt ≤ 100) :
    ((0 ≤ (hsb_channels ⟨hue, sat, brt⟩).1 ∧ (hsb_channels ⟨hue, sat, brt⟩).1 ≤ 255 ∧
        ((hsb_to_rgb ⟨hue, sat, brt⟩).r : Int) = (hsb_channels ⟨hue, sat, brt⟩).1) ∧
      (0 ≤ (hsb_channels ⟨hue, sat, brt⟩).2.1 ∧ (hsb_channels ⟨hue, sat, brt⟩).2.1 ≤ 255 ∧
        ((hsb_to_rgb ⟨hue, sat, brt⟩).g : Int) = (hsb_channels ⟨hue, sat, brt⟩).2.1) ∧
      (0 ≤ (hsb_channels ⟨hue, sat, brt⟩).2.2 ∧ (hsb_channels ⟨hue, sat, brt⟩).2.2 ≤ 255 ∧
        ((hsb_to_rgb ⟨hue, sat, brt⟩).b : Int) = (hsb_channels ⟨hue, sat, brt⟩).2.2)) ∧
    ((hsb_to_rgb ⟨hue, sat, brt⟩).r ≤ 255 ∧ (hsb_to_rgb ⟨hue, sat, brt⟩).g ≤ 255 ∧
      (hsb_to_rgb ⟨hue, sat, brt⟩).b ≤ 255) ∧
    ((hsb_to_rgb ⟨hue, 0, brt⟩).r = (hsb_to_rgb ⟨hue, 0, brt⟩).g ∧
      (hsb_to_rgb ⟨hue, 0, brt⟩).g = (hsb_to_rgb ⟨hue, 0, brt⟩).b) ∧
    hsb_to_rgb ⟨hue, sat, 0⟩ = black := by
  obtain ⟨⟨a0, a1⟩, ⟨b0, b1⟩, c0, c1⟩ := hsb_channels_range ⟨hue, sat, brt⟩ hh hs hb
  have ea := to_u8_of_range a0 a1
  have eb := to_u8_of_range b0 b1
  have ec := to_u8_of_range c0 c1
  refine ⟨⟨⟨a0, a1, ea⟩, ⟨b0, b1, eb⟩, c0, c1, ec⟩, ⟨?_, ?_, ?_⟩, ?_, ?_⟩
  · have : ((hsb_to_rgb ⟨hue, sat, brt⟩).r : Int) ≤ 255 := by
      show (to_u8 _ : Int) ≤ 255
      rw [ea]; exact a1
    exact_mod_cast this
  · have : ((hsb_to_rgb ⟨hue, sat, brt⟩).g : Int) ≤ 255 := by
      show (to_u8 _ : Int) ≤ 255
      rw [eb]; exact b1
    exact_mod_cast this
  · have : ((hsb_to_rgb ⟨hue, sat, brt⟩).b : Int) ≤ 255 := by
      show (to_u8 _ : Int) ≤ 255
      rw [ec]; exact c1
    exact_mod_cast this
  · simp [hsb_to_rgb, hsb_channels, hsb_components_gray]
  · simp [hsb_to_rgb, hsb_channels, hsb_components_black, trunc, to_u8, black]

/-- Witness for C1 at hue 200, saturation 40, brightness 80. -/
theorem hsb_to_rgb_range_gray_black_witness :
    (200 < 360 ∧ 40 ≤ 100 ∧ 80 ≤ 100) ∧
    (hsb_to_rgb ⟨200, 40, 80⟩).r ≤ 255 ∧
    (hsb_to_rgb ⟨200, 0, 80⟩).r = (hsb_to_rgb ⟨200, 0, 80⟩).g ∧
    hsb_to_rgb ⟨200, 40, 0⟩ = black :=
  ⟨by decide,
   (hsb_to_rgb_range_gray_black 200 40 80 (by decide) (by decide) (by decide)).2.1.1,
   (hsb_to_rgb_range_gray_black 200 40 80 (by decide) (by decide) (by decide)).2.2.1.1,
   (hsb_to_rgb_range_gray_black 200 40 80 (by decide) (by decide) (by decide)).2.2.2⟩

/-! ## Binary64 rounding -/

theorem round_even_err (q : ℚ) : |(round_even q : ℚ) - q| ≤ 1 / 2 := by
  have h1 : (⌊q⌋ : ℚ) ≤ q := Int.floor_le q
  have h2 : q < (⌊q⌋ : ℚ) + 1 := Int.lt_floor_add_one q
  unfold round_even
  simp only
  split_ifs with c1 c2 c3
  · rw [abs_le]; constructor <;> linarith
  · rw [abs_le]; push_cast; constructor <;> linarith
  · rw [abs_le]; constructor <;> linarith
  · rw [abs_le]; push_cast; constructor <;> linarith

theorem round_even_intCast (n : Int) : round_even (n : ℚ) = n := by
  unfold round_even
  simp

theorem f64_zero : f64 0 = 0 := by
  simp [f64]

theorem f64_err (x : ℚ) : |f64 x - x| ≤ |x| / 2 ^ 53 := by
  by_cases hx : x = 0
  · simp [hx, f64_zero]
  · have hpos : 0 < |x| := abs_pos.mpr hx
    have hlog : (2 : ℚ) ^ Int.log 2 |x| ≤ |x| := by
      have := Int.zpow_log_le_self (b := 2) (r := |x|) (by decide) hpos
      simpa using this
    set e := Int.log 2 |x| with he
    have hs : (0 : ℚ) < 2 ^ (e - 52) := zpow_pos (by norm_num) _
    have hfl : f64 x = (round_even (x / 2 ^ (e - 52)) : ℚ) * 2 ^ (e - 52) := by
      simp [f64, hx, he]
    have hx' : x = x / 2 ^ (e - 52) * 2 ^ (e - 52) := by
      field_simp
    have hdiff : f64 x - x
        = ((round_even (x / 2 ^ (e - 52)) : ℚ) - x / 2 ^ (e - 52)) * 2 ^ (e - 52) := by
      rw [hfl]; nth_rewrite 2 [hx']; ring
    rw [hdiff, abs_mul, abs_of_pos hs]
    have hr := round_even_err (x / 2 ^ (e - 52))
    have h52 : (2 : ℚ) ^ (e - 52) = 2 ^ e / 2 ^ 52 := by
      rw [zpow_sub₀ (by norm_num : (2 : ℚ) ≠ 0)]
      norm_num
    calc |(round_even (x / 2 ^ (e - 52)) : ℚ) - x / 2 ^ (e - 52)| * 2 ^ (e - 52)
        ≤ 1 / 2 * 2 ^ (e - 52) := by
          exact mul_le_mul_of_nonneg_right hr hs.le
      _ = 2 ^ e / 2 ^ 53 := by rw [h52]; ring
      _ ≤ |x| / 2 ^ 53 := by
          apply div_le_div_of_nonneg_right hlog
          positivity

theorem log_two_eq {x : ℚ} {e : Int} (h1 : (2 : ℚ) ^ e ≤ |x|) (h2 : |x| < 2 ^ (e + 1)) :
    Int.log 2 |x| = e := by
  have hpos : 0 < |x| := lt_of_lt_of_le (zpow_pos (by norm_num) _) h1
  have a : e ≤ Int.log 2 |x| := by
    apply (Int.zpow_le_iff_le_log (b := 2) (by decide) hpos).1
    simpa using h1
  have b : Int.log 2 |x| < e + 1 := by
    apply (Int.lt_zpow_iff_log_lt (b := 2) (by decide) hpos).1
    simpa using h2
  omega

/-- Evaluation of `f64` once the binade of the argument is known. -/
theorem f64_eval {x : ℚ} (e : Int) (h1 : (2 : ℚ) ^ e ≤ |x|) (h2 : |x| < 2 ^ (e + 1)) :
    f64 x = (round_even (x / 2 ^ (e - 52)) : ℚ) * 2 ^ (e - 52) := by
  have hpos : 0 < |x| := lt_of_lt_of_le (zpow_pos (by norm_num) _) h1
  have hx : x ≠ 0 := abs_pos.mp hpos
  simp [f64, hx, log_two_eq h1 h2]

/-- A value with at most 53 significant bits is a `double`: rounding keeps it. -/
theorem f64_exact (m k : Int) (hm : |m| < 2 ^ 53) :
    f64 ((m : ℚ) * 2 ^ k) = (m : ℚ) * 2 ^ k := by
  by_cases h0 : m = 0
  · simp [h0, f64_zero]
  · have hmq : (0 : ℚ) < |(m : ℚ)| := abs_pos.mpr (by exact_mod_cast h0)
    have h2k : (0 : ℚ) < 2 ^ k := zpow_pos (by norm_num) _
    have habs : |(m : ℚ) * 2 ^ k| = |(m : ℚ)| * 2 ^ k := by
      rw [abs_mul, abs_of_pos h2k]
    have hpos : 0 < |(m : ℚ) * 2 ^ k| := by rw [habs]; positivity
    set e := Int.log 2 |(m : ℚ) * 2 ^ k| with he
    have hlog : (2 : ℚ) ^ e ≤ |(m : ℚ) * 2 ^ k| := by
      have := Int.zpow_log_le_self (b := 2) (r := |(m : ℚ) * 2 ^ k|) (by decide) hpos
      simpa using this
    have hlt : |(m : ℚ)| < 2 ^ (53 : ℤ) := by
      have h := (Int.cast_lt (R := ℚ)).2 hm
      rw [Int.cast_abs] at h
      norm_num at h ⊢
      exact h
    have hup : |(m : ℚ) * 2 ^ k| < 2 ^ (53 + k) := by
      rw [habs, zpow_add₀ (by norm_num : (2 : ℚ) ≠ 0)]
      exact mul_lt_mul_of_pos_right hlt h2k
    have hek : e < 53 + k :=
      (zpow_lt_zpow_iff_right₀ (by norm_num : (1 : ℚ) < 2)).1 (lt_of_le_of_lt hlog hup)
    obtain ⟨n, hn⟩ : ∃ n : Nat, k - (e - 52) = (n : Int) :=
      ⟨(k - (e - 52)).toNat, by omega⟩
    have hx : (m : ℚ) * 2 ^ k ≠ 0 := abs_pos.mp hpos
    have hdiv : (m : ℚ) * 2 ^ k / 2 ^ (e - 52) = ((m * 2 ^ n : Int) : ℚ) := by
      rw [mul_div_assoc, ← zpow_sub₀ (by norm_num : (2 : ℚ) ≠ 0), hn, zpow_natCast]
      push_cast
      rfl
    have hfl : f64 ((m : ℚ) * 2 ^ k)
        = (round_even ((m : ℚ) * 2 ^ k / 2 ^ (e - 52)) : ℚ) * 2 ^ (e - 52) := by
      simp [f64, hx, he]
    rw [hfl, hdiv, round_even_intCast]
    push_cast
    rw [mul_assoc, ← zpow_natCast, ← hn, ← zpow_add₀ (by norm_num : (2 : ℚ) ≠ 0)]
    congr 2
    omega

theorem f64_one : f64 1 = 1 := by
  have := f64_exact 1 0 (by decide)
  simpa using this

theorem f64_half : f64 (1 / 2) = 1 / 2 := by
  have := f64_exact 1 (-1) (by decide)
  simpa using this

theorem f64_natCast (n : Nat) (h : n < 2 ^ 53) : f64 (n : ℚ) = n := by
  have := f64_exact (n : Int) 0 (by
    rw [abs_of_nonneg (by omega)]
    exact_mod_cast h)
  simpa using this

theorem f64_255_half : f64 (255 / 2) = 255 / 2 := by
  have := f64_exact 255 (-1) (by decide)
  norm_num at this ⊢
  exact this

/-! ## Rounding error of the binary64 converter -/

theorem eps_pos : 0 < eps := by
  unfold eps; norm_num

theorem f64_near {x : ℚ} (h : |x| ≤ 8) : |f64 x - x| ≤ eps := by
  have h1 := f64_err x
  have h2 : |x| / 2 ^ 53 ≤ 8 / 2 ^ 53 := by
    apply div_le_div_of_nonneg_right h
    positivity
  have h3 : (8 : ℚ) / 2 ^ 53 ≤ eps := by
    unfold eps; norm_num
  linarith

theorem f64_close {x y d : ℚ} (hx : |x - y| ≤ d) (hy : |y| ≤ 1) (hd : d ≤ 1) :
    |f64 x - y| ≤ d + eps := by
  have hxa : |x| ≤ 8 := by
    have : |x| ≤ |x - y| + |y| := by
      have := abs_add (x - y) y
      simpa using this
    linarith
  have h1 := f64_near hxa
  have h2 : |f64 x - y| ≤ |f64 x - x| + |x - y| := by
    have := abs_add (f64 x - x) (x - y)
    simpa using this
  linarith

theorem mul_close {x x' y y' a b : ℚ} (hx : |x - x'| ≤ a) (hy : |y - y'| ≤ b)
    (hx' : |x'| ≤ 1) (hy' : |y'| ≤ 1) (hb : b ≤ 1) :
    |x * y - x' * y'| ≤ 2 * a + b := by
  have ha0 : 0 ≤ a := le_trans (abs_nonneg _) hx
  have hyb : |y| ≤ 2 := by
    have : |y| ≤ |y - y'| + |y'| := by
      have := abs_add (y - y') y'
      simpa using this
    linarith
  have e : x * y - x' * y' = (x - x') * y + x' * (y - y') := by ring
  have h1 : |(x - x') * y| ≤ a * 2 := by
    rw [abs_mul]
    exact mul_le_mul hx hyb (abs_nonneg _) ha0
  have h2 : |x' * (y - y')| ≤ 1 * b := by
    rw [abs_mul]
    exact mul_le_mul hx' hy (abs_nonneg _) (by norm_num)
  rw [e]
  have := abs_add ((x - x') * y) (x' * (y - y'))
  linarith

theorem one_sub_close {x y d : ℚ} (h : |x - y| ≤ d) : |(1 - x) - (1 - y)| ≤ d := by
  have e : (1 - x) - (1 - y) = -(x - y) := by ring
  rw [e, abs_neg]
  exact h

theorem abs_le_one_of_unit {x : ℚ} (h0 : 0 ≤ x) (h1 : x ≤ 1) : |x| ≤ 1 := by
  rw [abs_le]; constructor <;> linarith

/-- Error of the three derived components: with `v`, `s`, `f` within `eps`, `eps`
and `8·eps` of exact values in the unit interval, `p`, `q`, `t` are within
`24·eps` of the exact ones. -/
theorem pqt_close {v s f v' s' f' : ℚ}
    (hv : |v - v'| ≤ eps) (hs : |s - s'| ≤ eps) (hf : |f - f'| ≤ 8 * eps)
    (hv0 : 0 ≤ v') (hv1 : v' ≤ 1) (hs0 : 0 ≤ s') (hs1 : s' ≤ 1)
    (hf0 : 0 ≤ f') (hf1 : f' ≤ 1) :
    |f64 (v * f64 (1 - s)) - v' * (1 - s')| ≤ 24 * eps ∧
    |f64 (v * f64 (1 - f64 (f * s))) - v' * (1 - f' * s')| ≤ 24 * eps ∧
    |f64 (v * f64 (1 - f64 (f64 (1 - f) * s))) - v' * (1 - (1 - f') * s')| ≤ 24 * eps := by
  have he := eps_pos
  have hes : eps ≤ 1 / 1000 := by unfold eps; norm_num
  have av := abs_le_one_of_unit hv0 hv1
  have as := abs_le_one_of_unit hs0 hs1
  have af := abs_le_one_of_unit hf0 hf1
  have hfs0 : 0 ≤ f' * s' := mul_nonneg hf0 hs0
  have hfs1 : f' * s' ≤ 1 := by nlinarith
  have hgs0 : 0 ≤ (1 - f') * s' := mul_nonneg (by linarith) hs0
  have hgs1 : (1 - f') * s' ≤ 1 := by nlinarith
  refine ⟨?_, ?_, ?_⟩
  · have a1 : |f64 (1 - s) - (1 - s')| ≤ eps + eps :=
      f64_close (one_sub_close hs) (abs_le_one_of_unit (by linarith) (by linarith))
        (by linarith)
    have a2 := mul_close hv a1 av (abs_le_one_of_unit (by linarith) (by linarith))
      (by linarith)
    have a3 := f64_close a2 (abs_le_one_of_unit (mul_nonneg hv0 (by linarith))
      (by nlinarith)) (by linarith)
    linarith
  · have b1 := mul_close hf hs af as (by linarith)
    have b2 := f64_close b1 (abs_le_one_of_unit hfs0 hfs1) (by linarith)
    have b3 := f64_close (one_sub_close b2)
      (abs_le_one_of_unit (by linarith) (by linarith)) (by linarith)
    have b4 := mul_close hv b3 av (abs_le_one_of_unit (by linarith) (by linarith))
      (by linarith)
    have b5 := f64_close b4 (abs_le_one_of_unit (mul_nonneg hv0 (by linarith))
      (by nlinarith)) (by linarith)
    linarith
  · have c0 := f64_close (one_sub_close hf)
      (abs_le_one_of_unit (by linarith) (by linarith)) (by linarith)
    have c1 := mul_close c0 hs (abs_le_one_of_unit (by linarith) (by linarith)) as
      (by linarith)
    have c2 := f64_close c1 (abs_le_one_of_unit hgs0 hgs1) (by linarith)
    have c3 := f64_close (one_sub_close c2)
      (abs_le_one_of_unit (by linarith) (by linarith)) (by linarith)
    have c4 := mul_close hv c3 av (abs_le_one_of_unit (by linarith) (by linarith))
      (by linarith)
    have c5 := f64_close c4 (abs_le_one_of_unit (mul_nonneg hv0 (by linarith))
      (by nlinarith)) (by linarith)
    linarith

/-- Error of the fraction `f`: in the domain of the converter the computed
`hue/360.0*6 - i` is within `8·eps` of the exact value. -/
theorem f_close {h : Nat} (hh : h < 360) :
    |f64 (f64 (f64 ((h : ℚ) / 360) * 6) - ((h / 60 : Nat) : ℚ))
      - ((h : ℚ) / 360 * 6 - ((h / 60 : Nat) : ℚ))| ≤ 8 * eps := by
  obtain ⟨_, _, hf0, hf1⟩ := sector_facts hh
  have he := eps_pos
  have hes : eps ≤ 1 / 1000 := by unfold eps; norm_num
  have hq0 : (0 : ℚ) ≤ (h : ℚ) / 360 := by positivity
  have hq1 : (h : ℚ) / 360 ≤ 1 := by
    have : (h : ℚ) < 360 := by exact_mod_cast hh
    rw [div_le_one (by norm_num)]
    linarith
  have a1 : |f64 ((h : ℚ) / 360) - (h : ℚ) / 360| ≤ eps :=
    f64_near (by rw [abs_le]; constructor <;> linarith)
  have a1' := abs_le.mp a1
  have a2 : |f64 (f64 ((h : ℚ) / 360) * 6) - f64 ((h : ℚ) / 360) * 6| ≤ eps :=
    f64_near (by rw [abs_le]; constructor <;> linarith)
  have a2' := abs_le.mp a2
  have a3 : |f64 (f64 (f64 ((h : ℚ) / 360) * 6) - ((h / 60 : Nat) : ℚ))
      - (f64 (f64 ((h : ℚ) / 360) * 6) - ((h / 60 : Nat) : ℚ))| ≤ eps :=
    f64_near (by rw [abs_le]; constructor <;> linarith)
  have a3' := abs_le.mp a3
  rw [abs_le]
  constructor <;> linarith

/-- A channel computed from a component within `24·eps` of an exact component in
the unit interval: the converted value lies in [0,255] and is within 1 of the
floor of the exact product. -/
theorem channel_close {c c' : ℚ} (h : |c - c'| ≤ 24 * eps) (h0 : 0 ≤ c') (h1 : c' ≤ 1) :
    0 ≤ trunc (f64 (c * 255)) ∧ trunc (f64 (c * 255)) ≤ 255 ∧
    |trunc (f64 (c * 255)) - ⌊c' * 255⌋| ≤ 1 := by
  have he := eps_pos
  have hes : eps ≤ 1 / 10 ^ 15 := by unfold eps; norm_num
  have h' := abs_le.mp h
  have hy : |f64 (c * 255) - c * 255| ≤ |c * 255| / 2 ^ 53 := f64_err _
  have hca : |c * 255| ≤ 512 := by
    rw [abs_le]; constructor <;> linarith
  have hy2 : |f64 (c * 255) - c * 255| ≤ 1 / 10 ^ 12 := by
    have : |c * 255| / 2 ^ 53 ≤ 512 / 2 ^ 53 := by
      apply div_le_div_of_nonneg_right hca
      positivity
    have : (512 : ℚ) / 2 ^ 53 ≤ 1 / 10 ^ 12 := by norm_num
    linarith
  have hy2' := abs_le.mp hy2
  set y := f64 (c * 255) with hydef
  have lo : c' * 255 - 1 / 10 ^ 9 ≤ y := by linarith
  have hi : y ≤ c' * 255 + 1 / 10 ^ 9 := by linarith
  have fl0 : 0 ≤ ⌊c' * 255⌋ := Int.floor_nonneg.mpr (by positivity)
  by_cases hyn : 0 ≤ y
  · have ht : trunc y = ⌊y⌋ := by simp [trunc, hyn]
    rw [ht]
    have u1 : ⌊y⌋ ≤ ⌊c' * 255 + 1⌋ := Int.floor_le_floor (by linarith)
    have u2 : ⌊c' * 255 - 1⌋ ≤ ⌊y⌋ := Int.floor_le_floor (by linarith)
    rw [Int.floor_add_one] at u1
    rw [Int.floor_sub_one] at u2
    have u3 : ⌊y⌋ < 256 := by
      rw [Int.floor_lt]
      push_cast
      linarith
    refine ⟨Int.floor_nonneg.mpr hyn, by omega, ?_⟩
    rw [abs_le]
    constructor <;> omega
  · have hyneg : y < 0 := lt_of_not_ge hyn
    have ht : trunc y = ⌈y⌉ := by simp [trunc, hyn]
    have c1 : ⌈y⌉ ≤ 0 := by
      rw [Int.ceil_le]; push_cast; linarith
    have c2 : -1 < ⌈y⌉ := by
      rw [Int.lt_ceil]; push_cast; linarith
    have hz : ⌈y⌉ = 0 := by omega
    have f1 : ⌊c' * 255⌋ < 1 := by
      rw [Int.floor_lt]; push_cast; linarith
    rw [ht, hz]
    refine ⟨le_refl _, by decide, ?_⟩
    rw [abs_le]
    constructor <;> omega

/-- In the domain of the converter every binary64 component is within `24·eps` of
the exact component. -/
theorem hsb_components_f64_close (hsb : led_hsb)
    (hh : hsb.h < 360) (hs : hsb.s ≤ 100) (hb : hsb.b ≤ 100) :
    |(hsb_components_f64 hsb).1 - (hsb_components hsb).1| ≤ 24 * eps ∧
    |(hsb_components_f64 hsb).2.1 - (hsb_components hsb).2.1| ≤ 24 * eps ∧
    |(hsb_components_f64 hsb).2.2 - (hsb_components hsb).2.2| ≤ 24 * eps := by
  obtain ⟨hi, h6, hf0, hf1⟩ := sector_facts hh
  have he := eps_pos
  have hv0 : (0 : ℚ) ≤ (hsb.b : ℚ) / 100 := by positivity
  have hv1 : (hsb.b : ℚ) / 100 ≤ 1 := by
    have : (hsb.b : ℚ) ≤ 100 := by exact_mod_cast hb
    linarith
  have hs0 : (0 : ℚ) ≤ (hsb.s : ℚ) / 100 := by positivity
  have hs1 : (hsb.s : ℚ) / 100 ≤ 1 := by
    have : (hsb.s : ℚ) ≤ 100 := by exact_mod_cast hs
    linarith
  have cv : |f64 ((hsb.b : ℚ) / 100) - (hsb.b : ℚ) / 100| ≤ eps :=
    f64_near (by rw [abs_le]; constructor <;> linarith)
  have cs : |f64 ((hsb.s : ℚ) / 100) - (hsb.s : ℚ) / 100| ≤ eps :=
    f64_near (by rw [abs_le]; constructor <;> linarith)
  have cf := f_close hh
  obtain ⟨cp, cq, ct⟩ := pqt_close cv cs cf hv0 hv1 hs0 hs1 hf0 hf1.le
  have cv24 : |f64 ((hsb.b : ℚ) / 100) - (hsb.b : ℚ) / 100| ≤ 24 * eps := by linarith
  unfold hsb_components_f64 hsb_components
  simp only [hi]
  generalize hsb.h / 60 = i at *
  interval_cases i <;> simp only [] <;> exact ⟨by assumption, by assumption, by assumption⟩

theorem hsb_components_f64_eq_spec (hue sat brt : Nat) (hh : hue < 360) :
    hsb_components_f64 ⟨hue, sat, brt⟩ = spec_components_f64 hue sat brt := by
  have hfl : ⌊(hue : ℚ) / 60⌋ = ((hue / 60 : Nat) : Int) := by
    have := Rat.floor_natCast_div_natCast hue 60
    simpa using this
  have h6 : hue / 60 < 6 := by omega
  unfold hsb_components_f64 spec_components_f64
  simp only [hfl]
  have hi : hue / 60 % 256 = hue / 60 := by omega
  rw [hi]
  generalize hue / 60 = i at *
  interval_cases i <;> simp

/-- The binary64 converter at hue 0, saturation 80, brightness 100: `1 - 0.8` is
computed as 0.19999999999999996, its product with 255 is below 51, and the green
and blue channels are 50, one below the exact-arithmetic value 51. -/
theorem hsb_to_rgb_f64_sample :
    hsb_to_rgb_f64 ⟨0, 80, 100⟩ = ⟨255, 50, 50⟩ ∧
    hsb_to_rgb ⟨0, 80, 100⟩ = ⟨255, 51, 51⟩ := by
  have hS : f64 ((4 : ℚ) / 5) = 3602879701896397 / 4503599627370496 := by
    rw [f64_eval (-1) (by norm_num [abs_of_pos]) (by norm_num [abs_of_pos])]
    norm_num [round_even]
  have hSS : f64 ((3602879701896397 : ℚ) / 4503599627370496)
      = 3602879701896397 / 4503599627370496 := by
    have := f64_exact 3602879701896397 (-52) (by decide)
    norm_num at this ⊢
    exact this
  have hP : f64 ((900719925474099 : ℚ) / 4503599627370496)
      = 900719925474099 / 4503599627370496 := by
    have := f64_exact 900719925474099 (-52) (by decide)
    norm_num at this ⊢
    exact this
  have h255 : f64 (255 : ℚ) = 255 := by
    have := f64_natCast 255 (by decide)
    simpa using this
  have hY : f64 ((229683580995895245 : ℚ) / 4503599627370496)
      = 3588805953060863 / 70368744177664 := by
    rw [f64_eval 5 (by norm_num [abs_of_pos]) (by norm_num [abs_of_pos])]
    norm_num [round_even]
  constructor
  · simp only [hsb_to_rgb_f64, hsb_channels_f64, hsb_components_f64]
    norm_num [hS, hSS, hP, h255, hY, f64_zero, f64_one, trunc, to_u8]
    decide
  · simp [hsb_to_rgb, hsb_channels, hsb_components, trunc, to_u8]
    norm_num
    rfl

/-- In binary64 the order of the operations in `f` matters: at hue 108 the code's
`hue/360.0*6 - i` is 0x1.9999999999998p-1, while `hue/60 - floor(hue/60)` would be
0x1.999999999999ap-1. -/
theorem fraction_order_matters :
    f64 (f64 (f64 ((108 : ℚ) / 360) * 6) - 1) = 3602879701896396 / 4503599627370496 ∧
    f64 (f64 ((108 : ℚ) / 60) - 1) = 3602879701896397 / 4503599627370496 := by
  have h1 : f64 ((3 : ℚ) / 10) = 5404319552844595 / 18014398509481984 := by
    rw [f64_eval (-2) (by norm_num [abs_of_pos]) (by norm_num [abs_of_pos])]
    norm_num [round_even]
  have h2 : f64 ((16212958658533785 : ℚ) / 9007199254740992)
      = 8106479329266892 / 4503599627370496 := by
    rw [f64_eval 0 (by norm_num [abs_of_pos]) (by norm_num [abs_of_pos])]
    norm_num [round_even]
  have h3 : f64 ((900719925474099 : ℚ) / 1125899906842624)
      = 900719925474099 / 1125899906842624 := by
    have := f64_exact 900719925474099 (-50) (by decide)
    norm_num at this ⊢
    exact this
  have h4 : f64 ((9 : ℚ) / 5) = 8106479329266893 / 4503599627370496 := by
    rw [f64_eval 0 (by norm_num [abs_of_pos]) (by norm_num [abs_of_pos])]
    norm_num [round_even]
  have h5 : f64 ((3602879701896397 : ℚ) / 4503599627370496)
      = 3602879701896397 / 4503599627370496 := by
    have := f64_exact 3602879701896397 (-52) (by decide)
    norm_num at this ⊢
    exact this
  constructor
  · norm_num [h1, h2, h3]
  · norm_num [h4, h5]

/-- Claim C2 as stated fails.  At hue 0, saturation 100, brightness 50 the red
component is 1/2 and 1/2 × 255 = 127.5, all exact in binary64; the code stores
127 (the fraction is discarded) while rounding gives 128.  At hue 0, saturation
80, brightness 100 the green component is 0.2 and rounding 0.2 × 255 gives 51; the
code computes `1 - 0.8` as 0.19999999999999996 and stores 50. -/
theorem hsb_to_rgb_f64_round_counterexample :
    ((0 < 360 ∧ 100 ≤ 100 ∧ 50 ≤ 100) ∧
      (hsb_to_rgb_f64 ⟨0, 100, 50⟩).r = 127 ∧
      round (f64 ((spec_components_f64 0 100 50).1 * 255)) = 128 ∧
      round ((spec_components 0 100 50).1 * 255) = 128) ∧
    ((0 < 360 ∧ 80 ≤ 100 ∧ 100 ≤ 100) ∧
      (hsb_to_rgb_f64 ⟨0, 80, 100⟩).g = 50 ∧
      round ((spec_components 0 80 100).2.1 * 255) = 51) := by
  have hv : f64 ((50 : ℚ) / 100) = 1 / 2 := by
    rw [show (50 : ℚ) / 100 = 1 / 2 by norm_num]; exact f64_half
  have h1 : (hsb_to_rgb_f64 ⟨0, 100, 50⟩).r = 127 := by
    simp [hsb_to_rgb_f64, hsb_channels_f64, hsb_components_f64, hv, trunc, to_u8]
    norm_num [f64_255_half]
    rfl
  have h2 : round (f64 ((spec_components_f64 0 100 50).1 * 255)) = 128 := by
    simp [spec_components_f64, hv]
    norm_num [f64_255_half, round_eq]
  have h3 : round ((spec_components 0 100 50).1 * 255) = 128 := by
    simp [spec_components, round_eq]
    norm_num
  have h4 : (hsb_to_rgb_f64 ⟨0, 80, 100⟩).g = 50 := by
    rw [hsb_to_rgb_f64_sample.1]
  have h5 : round ((spec_components 0 80 100).2.1 * 255) = 51 := by
    simp [spec_components, round_eq]
    norm_num
  exact ⟨⟨by decide, h1, h2, h3⟩, by decide, h4, h5⟩

/-- Claim C2, amended: for every hue in [0,360), saturation in [0,100] and
brightness in [0,100], each channel returned by the converter equals the integer
part of component × 255 (the fraction is discarded, not rounded), the components
being those of the conversion with `i = floor(hue/60) mod 6` and
`f = hue/360·6 - floor(hue/60)`, computed in binary64 arithmetic as the code does;
each channel is within 1 of the floor of the exact product. -/
theorem hsb_to_rgb_f64_trunc (hue sat brt : Nat)
    (hh : hue < 360) (hs : sat ≤ 100) (hb : brt ≤ 100) :
    (((hsb_to_rgb_f64 ⟨hue, sat, brt⟩).r : Int)
        = trunc (f64 ((spec_components_f64 hue sat brt).1 * 255)) ∧
      ((hsb_to_rgb_f64 ⟨hue, sat, brt⟩).g : Int)
        = trunc (f64 ((spec_components_f64 hue sat brt).2.1 * 255)) ∧
      ((hsb_to_rgb_f64 ⟨hue, sat, brt⟩).b : Int)
        = trunc (f64 ((spec_components_f64 hue sat brt).2.2 * 255))) ∧
    (|((hsb_to_rgb_f64 ⟨hue, sat, brt⟩).r : Int)
        - ⌊(spec_components hue sat brt).1 * 255⌋| ≤ 1 ∧
      |((hsb_to_rgb_f64 ⟨hue, sat, brt⟩).g : Int)
        - ⌊(spec_components hue sat brt).2.1 * 255⌋| ≤ 1 ∧
      |((hsb_to_rgb_f64 ⟨hue, sat, brt⟩).b : Int)
        - ⌊(spec_components hue sat brt).2.2 * 255⌋| ≤ 1) := by
  obtain ⟨⟨a0, a1⟩, ⟨b0, b1⟩, c0, c1⟩ := hsb_components_range ⟨hue, sat, brt⟩ hh hs hb
  obtain ⟨ca, cb, cc⟩ := hsb_components_f64_close ⟨hue, sat, brt⟩ hh hs hb
  obtain ⟨ra0, ra1, rad⟩ := channel_close ca a0 a1
  obtain ⟨rb0, rb1, rbd⟩ := channel_close cb b0 b1
  obtain ⟨rc0, rc1, rcd⟩ := channel_close cc c0 c1
  have ea : ((hsb_to_rgb_f64 ⟨hue, sat, brt⟩).r : Int)
      = trunc (f64 ((hsb_components_f64 ⟨hue, sat, brt⟩).1 * 255)) := to_u8_of_range ra0 ra1
  have eb : ((hsb_to_rgb_f64 ⟨hue, sat, brt⟩).g : Int)
      = trunc (f64 ((hsb_components_f64 ⟨hue, sat, brt⟩).2.1 * 255)) := to_u8_of_range rb0 rb1
  have ec : ((hsb_to_rgb_f64 ⟨hue, sat, brt⟩).b : Int)
      = trunc (f64 ((hsb_components_f64 ⟨hue, sat, brt⟩).2.2 * 255)) := to_u8_of_range rc0 rc1
  rw [ea, eb, ec, ← hsb_components_f64_eq_spec hue sat brt hh,
    ← hsb_components_eq_spec hue sat brt hh]
  exact ⟨⟨rfl, rfl, rfl⟩, rad, rbd, rcd⟩

/-- Witness for the amended C2 at hue 200, saturation 40, brightness 80. -/
theorem hsb_to_rgb_f64_trunc_witness :
    (200 < 360 ∧ 40 ≤ 100 ∧ 80 ≤ 100) ∧
    ((hsb_to_rgb_f64 ⟨200, 40, 80⟩).r : Int)
      = trunc (f64 ((spec_components_f64 200 40 80).1 * 255)) ∧
    |((hsb_to_rgb_f64 ⟨200, 40, 80⟩).r : Int)
      - ⌊(spec_components 200 40 80).1 * 255⌋| ≤ 1 :=
  ⟨by decide,
   (hsb_to_rgb_f64_trunc 200 40 80 (by decide) (by decide) (by decide)).1.1,
   (hsb_to_rgb_f64_trunc 200 40 80 (by decide) (by decide) (by decide)).2.1⟩

/-- Rounding is idempotent: the result of `f64` is itself a `double`. -/
theorem f64_idem (x : ℚ) : f64 (f64 x) = f64 x := by
  by_cases hx : x = 0
  · simp [hx, f64_zero]
  · have hpos : 0 < |x| := abs_pos.mpr hx
    set e := Int.log 2 |x| with he
    have hs : (0 : ℚ) < 2 ^ (e - 52) := zpow_pos (by norm_num) _
    have hup : |x| < 2 ^ (e + 1) := by
      have := Int.lt_zpow_succ_log_self (b := 2) (by decide) |x|
      simpa using this
    have hfl : f64 x = (round_even (x / 2 ^ (e - 52)) : ℚ) * 2 ^ (e - 52) := by
      simp [f64, hx, he]
    have hm : |x / 2 ^ (e - 52)| < 2 ^ 53 := by
      rw [abs_div, abs_of_pos hs, div_lt_iff₀ hs]
      have : (2 : ℚ) ^ 53 * 2 ^ (e - 52) = 2 ^ (e + 1) := by
        rw [← zpow_natCast, ← zpow_add₀ (by norm_num : (2 : ℚ) ≠ 0)]
        congr 1
        omega
      rw [this]
      exact hup
    have hr := round_even_err (x / 2 ^ (e - 52))
    set k := round_even (x / 2 ^ (e - 52)) with hk
    have hkq : |(k : ℚ)| < 2 ^ 53 + 1 := by
      have h1 : |(k : ℚ)| ≤ |(k : ℚ) - x / 2 ^ (e - 52)| + |x / 2 ^ (e - 52)| := by
        have := abs_add ((k : ℚ) - x / 2 ^ (e - 52)) (x / 2 ^ (e - 52))
        simpa using this
      linarith
    have hki : |k| ≤ 2 ^ 53 := by
      have h2 : ((|k| : Int) : ℚ) < ((2 ^ 53 + 1 : Int) : ℚ) := by
        rw [Int.cast_abs]
        norm_num at hkq ⊢
        exact hkq
      have h3 : |k| < 2 ^ 53 + 1 := by exact_mod_cast h2
      omega
    rw [hfl]
    rcases lt_or_eq_of_le hki with hlt | heq
    · exact f64_exact k (e - 52) hlt
    · have hcase : k = 2 ^ 53 ∨ k = -2 ^ 53 := by
        rcases abs_cases k with ⟨h1, _⟩ | ⟨h1, _⟩ <;> [left; right] <;> omega
      have h2p : (2 : ℚ) ^ 53 * 2 ^ (e - 52) = 2 ^ (e + 1) := by
        rw [← zpow_natCast, ← zpow_add₀ (by norm_num : (2 : ℚ) ≠ 0)]
        congr 1
        omega
      rcases hcase with hc | hc
      · have e1 : (k : ℚ) * 2 ^ (e - 52) = ((1 : Int) : ℚ) * 2 ^ (e + 1) := by
          rw [hc]; push_cast; norm_num at h2p ⊢; exact h2p
        rw [e1]
        exact f64_exact 1 (e + 1) (by decide)
      · have e1 : (k : ℚ) * 2 ^ (e - 52) = ((-1 : Int) : ℚ) * 2 ^ (e + 1) := by
          rw [hc]; push_cast; norm_num at h2p ⊢; exact h2p
        rw [e1]
        exact f64_exact (-1) (e + 1) (by decide)

/-- The binary64 components at saturation 0 are all `v`. -/
theorem hsb_components_f64_gray (hue brt : Nat) :
    hsb_components_f64 ⟨hue, 0, brt⟩
      = (f64 ((brt : ℚ) / 100), f64 ((brt : ℚ) / 100), f64 ((brt : ℚ) / 100)) := by
  unfold hsb_components_f64
  simp only [Nat.cast_zero, zero_div, f64_zero, mul_zero, sub_zero, f64_one, mul_one,
    f64_idem]
  split <;> rfl

/-- The binary64 components at brightness 0 are all 0. -/
theorem hsb_components_f64_black (hue sat : Nat) :
    hsb_components_f64 ⟨hue, sat, 0⟩ = (0, 0, 0) := by
  unfold hsb_components_f64
  simp only [Nat.cast_zero, zero_div, f64_zero, zero_mul]
  split <;> rfl

/-- The range, gray and black properties of the converter in binary64 arithmetic:
in the domain every channel expression lies in [0,255], so the stored channel is
that value; at saturation 0 the three channels are equal; at brightness 0 the
pixel is (0,0,0). -/
theorem hsb_to_rgb_f64_range_gray_black (hue sat brt : Nat)
    (hh : hue < 360) (hs : sat ≤ 100) (hb : brt ≤ 100) :
    ((0 ≤ (hsb_channels_f64 ⟨hue, sat, brt⟩).1 ∧ (hsb_channels_f64 ⟨hue, sat, brt⟩).1 ≤ 255) ∧
      (0 ≤ (hsb_channels_f64 ⟨hue, sat, brt⟩).2.1 ∧
        (hsb_channels_f64 ⟨hue, sat, brt⟩).2.1 ≤ 255) ∧
      (0 ≤ (hsb_channels_f64 ⟨hue, sat, brt⟩).2.2 ∧
        (hsb_channels_f64 ⟨hue, sat, brt⟩).2.2 ≤ 255)) ∧
    ((hsb_to_rgb_f64 ⟨hue, 0, brt⟩).r = (hsb_to_rgb_f64 ⟨hue, 0, brt⟩).g ∧
      (hsb_to_rgb_f64 ⟨hue, 0, brt⟩).g = (hsb_to_rgb_f64 ⟨hue, 0, brt⟩).b) ∧
    hsb_to_rgb_f64 ⟨hue, sat, 0⟩ = black := by
  obtain ⟨⟨a0, a1⟩, ⟨b0, b1⟩, c0, c1⟩ := hsb_components_range ⟨hue, sat, brt⟩ hh hs hb
  obtain ⟨ca, cb, cc⟩ := hsb_components_f64_close ⟨hue, sat, brt⟩ hh hs hb
  obtain ⟨ra0, ra1, _⟩ := channel_close ca a0 a1
  obtain ⟨rb0, rb1, _⟩ := channel_close cb b0 b1
  obtain ⟨rc0, rc1, _⟩ := channel_close cc c0 c1
  refine ⟨⟨⟨ra0, ra1⟩, ⟨rb0, rb1⟩, rc0, rc1⟩, ?_, ?_⟩
  · simp [hsb_to_rgb_f64, hsb_channels_f64, hsb_components_f64_gray]
  · simp [hsb_to_rgb_f64, hsb_channels_f64, hsb_components_f64_black, f64_zero, trunc,
      to_u8, black]

/-! ## Adjustment API -/

/-- Claim C3: when `led_strip` is null each of the six adjustment functions
returns `-ENODEV` (which is not 0) and leaves all the globals, lighting state and
frame included, unchanged, for every direction; when `led_strip` is set each of them
returns 0 for every integer direction. -/
theorem adjustments_not_ready_or_success (cfg : Config) (direction : Int) (sys : System) :
    (sys.led_strip = false →
      zmk_rgb_underglow_cycle_effect direction sys = (-ENODEV, sys) ∧
      zmk_rgb_underglow_toggle cfg sys = (-ENODEV, sys) ∧
      zmk_rgb_underglow_change_hue cfg direction sys = (-ENODEV, sys) ∧
      zmk_rgb_underglow_change_sat cfg direction sys = (-ENODEV, sys) ∧
      zmk_rgb_underglow_change_brt cfg direction sys = (-ENODEV, sys) ∧
      zmk_rgb_underglow_change_spd direction sys = (-ENODEV, sys)) ∧
    (sys.led_strip = true →
      (zmk_rgb_underglow_cycle_effect direction sys).1 = 0 ∧
      (zmk_rgb_underglow_toggle cfg sys).1 = 0 ∧
      (zmk_rgb_underglow_change_hue cfg direction sys).1 = 0 ∧
      (zmk_rgb_underglow_change_sat cfg direction sys).1 = 0 ∧
      (zmk_rgb_underglow_change_brt cfg direction sys).1 = 0 ∧
      (zmk_rgb_underglow_change_spd direction sys).1 = 0) ∧
    -ENODEV ≠ 0 := by
  refine ⟨fun h => ?_, fun h => ?_, by decide⟩
  · simp [zmk_rgb_underglow_cycle_effect, zmk_rgb_underglow_toggle,
      zmk_rgb_underglow_change_hue, zmk_rgb_underglow_change_sat,
      zmk_rgb_underglow_change_brt, zmk_rgb_underglow_change_spd, h]
  · refine ⟨?_, ?_, ?_, ?_, ?_, ?_⟩
    · simp only [zmk_rgb_underglow_cycle_effect, h, Bool.not_true, Bool.false_eq_true, if_false]
      split_ifs <;> rfl
    · simp only [zmk_rgb_underglow_toggle, h, Bool.not_true, Bool.false_eq_true, if_false]
      split_ifs <;> rfl
    · simp only [zmk_rgb_underglow_change_hue, h, Bool.not_true, Bool.false_eq_true, if_false]
      split_ifs <;> rfl
    · simp only [zmk_rgb_underglow_change_sat, h, Bool.not_true, Bool.false_eq_true, if_false]
      split_ifs <;> rfl
    · simp only [zmk_rgb_underglow_change_brt, h, Bool.not_true, Bool.false_eq_true, if_false]
      split_ifs <;> rfl
    · simp only [zmk_rgb_underglow_change_spd, h, Bool.not_true, Bool.false_eq_true, if_false]
      split_ifs <;> rfl

/-- Claim C5: with the strip present and a hue step between 1 and 350,
`change_hue(-1)` at hue 0 yields hue 350, `change_hue(+1)` at hue 350 yields hue 0,
and for every hue in [0,350] with hue + step at most 350, `change_hue(+1)` yields
exactly hue + step. -/
theorem change_hue_wrap (cfg : Config) (sys : System) (hs : sys.led_strip = true)
    (h1 : 1 ≤ cfg.HUE_STEP) (h2 : cfg.HUE_STEP ≤ 350) :
    (sys.state.hue = 0 →
      (zmk_rgb_underglow_change_hue cfg (-1) sys).2.state.hue = 350) ∧
    (sys.state.hue = 350 →
      (zmk_rgb_underglow_change_hue cfg 1 sys).2.state.hue = 0) ∧
    (sys.state.hue ≤ 350 → (sys.state.hue : Int) + cfg.HUE_STEP ≤ 350 →
      ((zmk_rgb_underglow_change_hue cfg 1 sys).2.state.hue : Int)
        = (sys.state.hue : Int) + cfg.HUE_STEP) := by
  refine ⟨fun h0 => ?_, fun h350 => ?_, fun hle hsum => ?_⟩
  · simp [zmk_rgb_underglow_change_hue, hs, h0]
  · have : to_u16 (350 + cfg.HUE_STEP) > 350 := by
      unfold to_u16; omega
    simp [zmk_rgb_underglow_change_hue, hs, h350, this]
  · have e : (to_u16 ((sys.state.hue : Int) + cfg.HUE_STEP) : Int)
        = (sys.state.hue : Int) + cfg.HUE_STEP := by
      unfold to_u16; omega
    have : ¬ to_u16 ((sys.state.hue : Int) + cfg.HUE_STEP) > 350 := by
      omega
    simp [zmk_rgb_underglow_change_hue, hs, this, e]

/-- Claim C6: with the strip present and saturation and brightness steps between
1 and 100, the clamped adjustments change nothing at their boundaries:
`change_sat(-1)` at saturation 0, `change_brt(-1)` at brightness 0, `change_sat(+1)`
at saturation 100, `change_brt(+1)` at brightness 100, `change_spd(+1)` at speed 5
and `change_spd(-1)` at speed 1 each return 0 and leave the globals as they were. -/
theorem clamped_adjustments_boundary (cfg : Config) (sys : System)
    (hs : sys.led_strip = true)
    (hs1 : 1 ≤ cfg.SAT_STEP) (hs2 : cfg.SAT_STEP ≤ 100)
    (hb1 : 1 ≤ cfg.BRT_STEP) (hb2 : cfg.BRT_STEP ≤ 100) :
    (sys.state.saturation = 0 → zmk_rgb_underglow_change_sat cfg (-1) sys = (0, sys)) ∧
    (sys.state.brightness = 0 → zmk_rgb_underglow_change_brt cfg (-1) sys = (0, sys)) ∧
    (sys.state.saturation = 100 → zmk_rgb_underglow_change_sat cfg 1 sys = (0, sys)) ∧
    (sys.state.brightness = 100 → zmk_rgb_underglow_change_brt cfg 1 sys = (0, sys)) ∧
    (sys.state.animation_speed = 5 → zmk_rgb_underglow_change_spd 1 sys = (0, sys)) ∧
    (sys.state.animation_speed = 1 → zmk_rgb_underglow_change_spd (-1) sys = (0, sys)) := by
  obtain ⟨st, ls, px, tm, so⟩ := sys
  obtain ⟨hue, sat, brt, spd, eff, step, isOn⟩ := st
  simp only at hs
  subst hs
  refine ⟨?_, ?_, ?_, ?_, ?_, ?_⟩
  · rintro rfl
    simp [zmk_rgb_underglow_change_sat]
  · rintro rfl
    simp [zmk_rgb_underglow_change_brt]
  · intro h
    simp only at h
    subst h
    have : to_u8 (100 + cfg.SAT_STEP) > 100 := by unfold to_u8; omega
    simp [zmk_rgb_underglow_change_sat, this]
  · intro h
    simp only at h
    subst h
    have : to_u8 (100 + cfg.BRT_STEP) > 100 := by unfold to_u8; omega
    simp [zmk_rgb_underglow_change_brt, this]
  · intro h
    simp only at h
    subst h
    simp [zmk_rgb_underglow_change_spd, to_u8]
  · intro h
    simp only at h
    subst h
    simp [zmk_rgb_underglow_change_spd]

/-- Claim C7: with the strip present, `toggle` on a state that is on turns it off,
leaves the other fields of the lighting state unchanged, makes every pixel of the
frame (0,0,0), pushes that frame and stops the timer; `toggle` on a state that is
off turns it on, sets the animation step to 0, leaves the other fields and the
frame unchanged and starts the timer. -/
theorem toggle_effect (cfg : Config) (sys : System) (hs : sys.led_strip = true) :
    (sys.state.on_ = true →
      (zmk_rgb_underglow_toggle cfg sys).2.state = { sys.state with on_ := false } ∧
      (zmk_rgb_underglow_toggle cfg sys).2.pixels.length = cfg.STRIP_NUM_PIXELS ∧
      (∀ p ∈ (zmk_rgb_underglow_toggle cfg sys).2.pixels, p = black) ∧
      (zmk_rgb_underglow_toggle cfg sys).2.strip_out
        = (zmk_rgb_underglow_toggle cfg sys).2.pixels ∧
      (zmk_rgb_underglow_toggle cfg sys).2.timer = false) ∧
    (sys.state.on_ = false →
      (zmk_rgb_underglow_toggle cfg sys).2.state
        = { sys.state with on_ := true, animation_step := 0 } ∧
      (zmk_rgb_underglow_toggle cfg sys).2.pixels = sys.pixels ∧
      (zmk_rgb_underglow_toggle cfg sys).2.timer = true) := by
  constructor
  · intro ho
    simp [zmk_rgb_underglow_toggle, hs, ho, led_strip_update_rgb, fill_pixels]
  · intro ho
    simp [zmk_rgb_underglow_toggle, hs, ho]

/-! ## Tick, timer and reachable states -/

/-- A tick changes neither the on/off flag, nor the timer, nor the selected
effect, nor the speed. -/
theorem tick_frame (cfg : Config) (sys : System) :
    (zmk_rgb_underglow_tick cfg sys).state.on_ = sys.state.on_ ∧
    (zmk_rgb_underglow_tick cfg sys).timer = sys.timer ∧
    (zmk_rgb_underglow_tick cfg sys).state.current_effect = sys.state.current_effect ∧
    (zmk_rgb_underglow_tick cfg sys).state.animation_speed = sys.state.animation_speed := by
  simp only [zmk_rgb_underglow_tick]
  split <;> exact ⟨rfl, rfl, rfl, rfl⟩

theorem tick_spectrum_swirl_step_lt (cfg : Config) (sys : System)
    (he : sys.state.current_effect = 2 ∨ sys.state.current_effect = 3) :
    (zmk_rgb_underglow_tick cfg sys).state.animation_step < 360 := by
  rcases he with he | he
  · simp only [zmk_rgb_underglow_tick, he, led_strip_update_rgb,
      zmk_rgb_underglow_effect_spectrum]
    exact Nat.mod_lt _ (by decide)
  · simp only [zmk_rgb_underglow_tick, he, led_strip_update_rgb,
      zmk_rgb_underglow_effect_swirl]
    exact Nat.mod_lt _ (by decide)

theorem ticks_spectrum_swirl_step_lt (cfg : Config) (n : Nat) :
    ∀ sys : System, sys.state.animation_step < 360 →
      (sys.state.current_effect = 2 ∨ sys.state.current_effect = 3) →
      (ticks cfg n sys).state.animation_step < 360 := by
  induction n with
  | zero => intro sys h _; exact h
  | succ n ih =>
    intro sys _ he
    show (ticks cfg n (zmk_rgb_underglow_tick cfg sys)).state.animation_step < 360
    apply ih
    · exact tick_spectrum_swirl_step_lt cfg sys he
    · rw [(tick_frame cfg sys).2.2.1]; exact he

/-- Claim C9: for every animation step in [0,359] and speed in [1,5], a tick with
the Spectrum effect sets the step to (step + speed) mod 360, a tick with the Swirl
effect sets it to (step + 2·speed) mod 360, and after any number of ticks with
either effect the step is still at most 359. -/
theorem spectrum_swirl_step (cfg : Config) (sys : System)
    (hstep : sys.state.animation_step ≤ 359)
    (h1 : 1 ≤ sys.state.animation_speed) (h5 : sys.state.animation_speed ≤ 5) :
    (sys.state.current_effect = 2 →
      (zmk_rgb_underglow_tick cfg sys).state.animation_step
        = (sys.state.animation_step + sys.state.animation_speed) % 360) ∧
    (sys.state.current_effect = 3 →
      (zmk_rgb_underglow_tick cfg sys).state.animation_step
        = (sys.state.animation_step + 2 * sys.state.animation_speed) % 360) ∧
    (sys.state.current_effect = 2 ∨ sys.state.current_effect = 3 →
      ∀ n : Nat, (ticks cfg n sys).state.animation_step ≤ 359) := by
  refine ⟨fun he => ?_, fun he => ?_, fun he n => ?_⟩
  · have e : to_u16 ((sys.state.animation_step : Int) + (sys.state.animation_speed : Int))
        = sys.state.animation_step + sys.state.animation_speed := by
      unfold to_u16; omega
    simp only [zmk_rgb_underglow_tick, he, led_strip_update_rgb,
      zmk_rgb_underglow_effect_spectrum, e]
  · have e : to_u16 ((sys.state.animation_step : Int) + (sys.state.animation_speed : Int) * 2)
        = sys.state.animation_step + 2 * sys.state.animation_speed := by
      unfold to_u16; omega
    simp only [zmk_rgb_underglow_tick, he, led_strip_update_rgb,
      zmk_rgb_underglow_effect_swirl, e]
  · have := ticks_spectrum_swirl_step_lt cfg n sys (by omega) he
    omega

/-- Claim C10: for every strip length N ≥ 1 and animation step in [0,359], the
Swirl generator builds pixel `i` from the hue (360/N × i + step) mod 360, with the
integer quotient 360/N; pixel 0 exists and has hue `step`, every hue is below 360,
and the hues of pixels `i` and `i+1` differ by 360/N modulo 360. -/
theorem swirl_hues (cfg : Config) (sys : System)
    (hN : 1 ≤ cfg.STRIP_NUM_PIXELS) (hstep : sys.state.animation_step ≤ 359) :
    (zmk_rgb_underglow_effect_swirl cfg sys).pixels
      = (List.range cfg.STRIP_NUM_PIXELS).map
          (fun i => hsb_to_rgb_f64 (swirl_hsb cfg sys.state i)) ∧
    (∀ i : Nat, (swirl_hsb cfg sys.state i).h
      = (360 / cfg.STRIP_NUM_PIXELS * i + sys.state.animation_step) % 360) ∧
    (zmk_rgb_underglow_effect_swirl cfg sys).pixels.head?
      = some (hsb_to_rgb_f64 (swirl_hsb cfg sys.state 0)) ∧
    (swirl_hsb cfg sys.state 0).h = sys.state.animation_step ∧
    (∀ i : Nat, (swirl_hsb cfg sys.state i).h < 360) ∧
    (∀ i : Nat, i + 1 < cfg.STRIP_NUM_PIXELS →
      (((swirl_hsb cfg sys.state (i + 1)).h : Int) - ((swirl_hsb cfg sys.state i).h : Int)) % 360
        = ((360 / cfg.STRIP_NUM_PIXELS : Nat) : Int) % 360) := by
  have key : ∀ i : Nat, (swirl_hsb cfg sys.state i).h
      = (360 / cfg.STRIP_NUM_PIXELS * i + sys.state.animation_step) % 360 := by
    intro i
    have e : Int.tmod (Int.tdiv 360 (cfg.STRIP_NUM_PIXELS : Int) * (i : Int)
        + (sys.state.animation_step : Int)) 360
        = (((360 / cfg.STRIP_NUM_PIXELS * i + sys.state.animation_step) % 360 : Nat) : Int) := by
      have : Int.tdiv 360 (cfg.STRIP_NUM_PIXELS : Int)
          = ((360 / cfg.STRIP_NUM_PIXELS : Nat) : Int) := (Int.ofNat_tdiv 360 _).symm
      rw [this, Int.ofNat_tmod]
      push_cast
      rfl
    simp only [swirl_hsb, mk_hsb, e]
    unfold to_u16
    omega
  refine ⟨rfl, key, ?_, ?_, ?_, ?_⟩
  · obtain ⟨n, hn⟩ : ∃ n, cfg.STRIP_NUM_PIXELS = n + 1 := ⟨cfg.STRIP_NUM_PIXELS - 1, by omega⟩
    simp [zmk_rgb_underglow_effect_swirl, fill_pixels, hn, List.range_succ_eq_map]
  · rw [key 0]; simp; omega
  · intro i; rw [key i]; exact Nat.mod_lt _ (by decide)
  · intro i _
    rw [key (i + 1), key i]
    generalize 360 / cfg.STRIP_NUM_PIXELS = a
    have : a * (i + 1) = a * i + a := by ring
    rw [this]
    generalize a * i = k
    omega

/-- Witness for C3: the zero-initialised globals (no strip) and the state after a
successful initialisation. -/
theorem adjustments_not_ready_or_success_witness :
    (boot sample_cfg).led_strip = false ∧
    zmk_rgb_underglow_change_hue sample_cfg 1 (boot sample_cfg)
      = (-ENODEV, boot sample_cfg) ∧
    sample_started.led_strip = true ∧
    (zmk_rgb_underglow_change_hue sample_cfg (-70000) sample_started).1 = 0 :=
  ⟨rfl,
   ((adjustments_not_ready_or_success sample_cfg 1 (boot sample_cfg)).1 rfl).2.2.1,
   rfl,
   ((adjustments_not_ready_or_success sample_cfg (-70000) sample_started).2.1 rfl).2.2.1⟩

/-- Witness for C5 at hue 0 with a hue step of 10. -/
theorem change_hue_wrap_witness :
    sample_started.led_strip = true ∧
    (1 ≤ sample_cfg.HUE_STEP ∧ sample_cfg.HUE_STEP ≤ 350) ∧
    sample_started.state.hue = 0 ∧
    (zmk_rgb_underglow_change_hue sample_cfg (-1) sample_started).2.state.hue = 350 ∧
    ((sample_started.state.hue : Int) + sample_cfg.HUE_STEP ≤ 350) ∧
    ((zmk_rgb_underglow_change_hue sample_cfg 1 sample_started).2.state.hue : Int)
      = (sample_started.state.hue : Int) + sample_cfg.HUE_STEP :=
  ⟨rfl, by decide, rfl,
   (change_hue_wrap sample_cfg sample_started rfl (by decide) (by decide)).1 rfl,
   by decide,
   (change_hue_wrap sample_cfg sample_started rfl (by decide) (by decide)).2.2
     (by decide) (by decide)⟩

/-- Witness for C6 at saturation 100 and brightness 100 with steps of 10. -/
theorem clamped_adjustments_boundary_witness :
    sample_started.led_strip = true ∧
    (1 ≤ sample_cfg.SAT_STEP ∧ sample_cfg.SAT_STEP ≤ 100) ∧
    (1 ≤ sample_cfg.BRT_STEP ∧ sample_cfg.BRT_STEP ≤ 100) ∧
    sample_started.state.saturation = 100 ∧
    zmk_rgb_underglow_change_sat sample_cfg 1 sample_started = (0, sample_started) ∧
    sample_started.state.brightness = 100 ∧
    zmk_rgb_underglow_change_brt sample_cfg 1 sample_started = (0, sample_started) :=
  ⟨rfl, by decide, by decide, rfl,
   (clamped_adjustments_boundary sample_cfg sample_started rfl
     (by decide) (by decide) (by decide) (by decide)).2.2.1 rfl,
   rfl,
   (clamped_adjustments_boundary sample_cfg sample_started rfl
     (by decide) (by decide) (by decide) (by decide)).2.2.2.1 rfl⟩

/-- Witness for C7 at the state after initialisation, which is on. -/
theorem toggle_effect_witness :
    sample_started.led_strip = true ∧
    sample_started.state.on_ = true ∧
    (∀ p ∈ (zmk_rgb_underglow_toggle sample_cfg sample_started).2.pixels, p = black) ∧
    (zmk_rgb_underglow_toggle sample_cfg sample_started).2.state.on_ = false :=
  ⟨rfl, rfl,
   ((toggle_effect sample_cfg sample_started rfl).1 rfl).2.2.1,
   congrArg rgb_underglow_state.on_ ((toggle_effect sample_cfg sample_started rfl).1 rfl).1⟩

/-- Witness for C9 at a Swirl state with step 356 and speed 3. -/
theorem spectrum_swirl_step_witness :
    (sample_swirl.state.animation_step ≤ 359 ∧
      1 ≤ sample_swirl.state.animation_speed ∧ sample_swirl.state.animation_speed ≤ 5) ∧
    sample_swirl.state.current_effect = 3 ∧
    (zmk_rgb_underglow_tick sample_cfg sample_swirl).state.animation_step
      = (sample_swirl.state.animation_step + 2 * sample_swirl.state.animation_speed) % 360 ∧
    ∀ n : Nat, (ticks sample_cfg n sample_swirl).state.animation_step ≤ 359 :=
  ⟨by decide, rfl,
   (spectrum_swirl_step sample_cfg sample_swirl (by decide) (by decide) (by decide)).2.1 rfl,
   (spectrum_swirl_step sample_cfg sample_swirl (by decide) (by decide) (by decide)).2.2
     (Or.inr rfl)⟩

/-- Witness for C10 on a strip of seven pixels at step 356. -/
theorem swirl_hues_witness :
    (1 ≤ sample_cfg.STRIP_NUM_PIXELS ∧ sample_swirl.state.animation_step ≤ 359) ∧
    (swirl_hsb sample_cfg sample_swirl.state 0).h = sample_swirl.state.animation_step ∧
    (((swirl_hsb sample_cfg sample_swirl.state 1).h : Int)
        - ((swirl_hsb sample_cfg sample_swirl.state 0).h : Int)) % 360
      = ((360 / sample_cfg.STRIP_NUM_PIXELS : Nat) : Int) % 360 :=
  ⟨by decide,
   (swirl_hues sample_cfg sample_swirl (by decide) (by decide)).2.2.2.1,
   (swirl_hues sample_cfg sample_swirl (by decide) (by decide)).2.2.2.2.2 0 (by decide)⟩

/-! ## Breathe -/

/-- The brightness field of the Breathe triple, for a step of at most 1200. -/
theorem breathe_b_low (st : rgb_underglow_state) (i : Nat)
    (h : st.animation_step ≤ 1200) :
    (breathe_hsb st i).b = (1200 - st.animation_step) / 12 := by
  have e : Int.tdiv (Int.natAbs ((st.animation_step : Int) - 1200) : Int) 12
      = (((1200 - st.animation_step) / 12 : Nat) : Int) := by
    have : Int.natAbs ((st.animation_step : Int) - 1200) = 1200 - st.animation_step := by
      omega
    rw [this]
    exact (Int.ofNat_tdiv _ 12).symm
  simp only [breathe_hsb, mk_hsb, e]
  unfold to_u8
  omega

/-- The brightness field of the Breathe triple, for a step between 1200 and 2400. -/
theorem breathe_b_high (st : rgb_underglow_state) (i : Nat)
    (h1 : 1200 ≤ st.animation_step) (h2 : st.animation_step ≤ 2400) :
    (breathe_hsb st i).b = (st.animation_step - 1200) / 12 := by
  have e : Int.tdiv (Int.natAbs ((st.animation_step : Int) - 1200) : Int) 12
      = (((st.animation_step - 1200) / 12 : Nat) : Int) := by
    have : Int.natAbs ((st.animation_step : Int) - 1200) = st.animation_step - 1200 := by
      omega
    rw [this]
    exact (Int.ofNat_tdiv _ 12).symm
  simp only [breathe_hsb, mk_hsb, e]
  unfold to_u8
  omega

/-- Claim C11 as stated fails: the Breathe brightness at animation step 1200 is 0,
not the peak 100, and at animation steps 0 and 2400 it is 100, not the minimum. -/
theorem breathe_brightness_inverted :
    (breathe_hsb { sample_started.state with animation_step := 1200 } 0).b = 0 ∧
    (breathe_hsb { sample_started.state with animation_step := 0 } 0).b = 100 ∧
    (breathe_hsb { sample_started.state with animation_step := 2400 } 0).b = 100 := by
  decide

/-- Claim C11, amended: the brightness the Breathe generator uses is the V-shaped
wave `|step - 1200| / 12` (integer division) for every animation step in
[0,2400]: it is 100 at animation steps 0 and 2400 and at its minimum 0 at
animation step 1200; stepping from 0 to 2400 it first falls (non-increasing on
[0,1200]) and then rises (non-decreasing on [1200,2400]). -/
theorem breathe_brightness_shape (st : rgb_underglow_state) (i a b step : Nat) :
    (step ≤ 2400 →
      ((breathe_hsb { st with animation_step := step } i).b : Int)
        = |(step : Int) - 1200| / 12) ∧
    (breathe_hsb { st with animation_step := 0 } i).b = 100 ∧
    (breathe_hsb { st with animation_step := 1200 } i).b = 0 ∧
    (breathe_hsb { st with animation_step := 2400 } i).b = 100 ∧
    (a ≤ b → b ≤ 1200 →
      (breathe_hsb { st with animation_step := b } i).b
        ≤ (breathe_hsb { st with animation_step := a } i).b) ∧
    (1200 ≤ a → a ≤ b → b ≤ 2400 →
      (breathe_hsb { st with animation_step := a } i).b
        ≤ (breathe_hsb { st with animation_step := b } i).b) := by
  refine ⟨?_, ?_, ?_, ?_, ?_, ?_⟩
  · intro hstep
    by_cases hl : step ≤ 1200
    · rw [breathe_b_low _ _ (show step ≤ 1200 from hl)]
      show (((1200 - step) / 12 : Nat) : Int) = |(step : Int) - 1200| / 12
      rw [abs_of_nonpos (by omega)]
      omega
    · rw [breathe_b_high _ _ (show 1200 ≤ step by omega) (show step ≤ 2400 from hstep)]
      show (((step - 1200) / 12 : Nat) : Int) = |(step : Int) - 1200| / 12
      rw [abs_of_nonneg (by omega)]
      omega
  · rw [breathe_b_low _ _ (by simp)]
    show (1200 - 0) / 12 = 100
    decide
  · rw [breathe_b_low _ _ (by simp)]
    show (1200 - 1200) / 12 = 0
    decide
  · rw [breathe_b_high _ _ (by simp) (by simp)]
    show (2400 - 1200) / 12 = 100
    decide
  · intro hab hb
    rw [breathe_b_low _ _ (show b ≤ 1200 from hb),
      breathe_b_low _ _ (show a ≤ 1200 by omega)]
    show (1200 - b) / 12 ≤ (1200 - a) / 12
    omega
  · intro ha hab hb
    rw [breathe_b_high _ _ (show 1200 ≤ a from ha) (show a ≤ 2400 by omega),
      breathe_b_high _ _ (show 1200 ≤ b by omega) (show b ≤ 2400 from hb)]
    show (a - 1200) / 12 ≤ (b - 1200) / 12
    omega

/-- Witness for the amended C11 at animation step 900, at steps 300 and 600, and
at steps 1500 and 1800. -/
theorem breathe_brightness_shape_witness :
    (900 : Nat) ≤ 2400 ∧
    ((breathe_hsb { sample_started.state with animation_step := 900 } 0).b : Int)
      = |((900 : Nat) : Int) - 1200| / 12 ∧
    ((300 : Nat) ≤ 600 ∧ (600 : Nat) ≤ 1200) ∧
    (breathe_hsb { sample_started.state with animation_step := 600 } 0).b
      ≤ (breathe_hsb { sample_started.state with animation_step := 300 } 0).b ∧
    ((1200 : Nat) ≤ 1500 ∧ (1500 : Nat) ≤ 1800 ∧ (1800 : Nat) ≤ 2400) ∧
    (breathe_hsb { sample_started.state with animation_step := 1500 } 0).b
      ≤ (breathe_hsb { sample_started.state with animation_step := 1800 } 0).b :=
  ⟨by decide,
   (breathe_brightness_shape sample_started.state 0 300 600 900).1 (by decide),
   by decide,
   (breathe_brightness_shape sample_started.state 0 300 600 900).2.2.2.2.1
     (by decide) (by decide),
   by decide,
   (breathe_brightness_shape sample_started.state 0 1500 1800 900).2.2.2.2.2
     (by decide) (by decide) (by decide)⟩

theorem tick_breathe_step_le (cfg : Config) (sys : System)
    (he : sys.state.current_effect = 1) :
    (zmk_rgb_underglow_tick cfg sys).state.animation_step ≤ 2400 := by
  simp only [zmk_rgb_underglow_tick, he, led_strip_update_rgb,
    zmk_rgb_underglow_effect_breathe]
  split_ifs with h
  · exact Nat.zero_le _
  · omega

theorem ticks_breathe_step_le (cfg : Config) (n : Nat) :
    ∀ sys : System, sys.state.animation_step ≤ 2400 →
      sys.state.current_effect = 1 →
      (ticks cfg n sys).state.animation_step ≤ 2400 := by
  induction n with
  | zero => intro sys h _; exact h
  | succ n ih =>
    intro sys _ he
    show (ticks cfg n (zmk_rgb_underglow_tick cfg sys)).state.animation_step ≤ 2400
    apply ih
    · exact tick_breathe_step_le cfg sys he
    · rw [(tick_frame cfg sys).2.2.1]; exact he

/-- Claim C18: for every animation step in [0,2400] and speed in [1,5], a tick with
the Breathe effect sets the step to step + 10·speed when that sum is at most 2400
and to 0 when it exceeds 2400; the value 2400 itself is kept, and after any number
of Breathe ticks the step is still at most 2400. -/
theorem breathe_step (cfg : Config) (sys : System)
    (he : sys.state.current_effect = 1)
    (hstep : sys.state.animation_step ≤ 2400)
    (h1 : 1 ≤ sys.state.animation_speed) (h5 : sys.state.animation_speed ≤ 5) :
    (zmk_rgb_underglow_tick cfg sys).state.animation_step
      = (if sys.state.animation_step + 10 * sys.state.animation_speed ≤ 2400
          then sys.state.animation_step + 10 * sys.state.animation_speed else 0) ∧
    (sys.state.animation_step + 10 * sys.state.animation_speed = 2400 →
      (zmk_rgb_underglow_tick cfg sys).state.animation_step = 2400) ∧
    (∀ n : Nat, (ticks cfg n sys).state.animation_step ≤ 2400) := by
  have e : to_u16 ((sys.state.animation_step : Int) + (sys.state.animation_speed : Int) * 10)
      = sys.state.animation_step + 10 * sys.state.animation_speed := by
    unfold to_u16; omega
  have key : (zmk_rgb_underglow_tick cfg sys).state.animation_step
      = (if sys.state.animation_step + 10 * sys.state.animation_speed ≤ 2400
          then sys.state.animation_step + 10 * sys.state.animation_speed else 0) := by
    simp only [zmk_rgb_underglow_tick, he, led_strip_update_rgb,
      zmk_rgb_underglow_effect_breathe, e]
    split_ifs <;> omega
  refine ⟨key, fun h => ?_, fun n => ticks_breathe_step_le cfg n sys hstep he⟩
  rw [key, if_pos (by omega)]
  exact h

/-- Witness for C18 at a Breathe state with step 2370 and speed 3, where the sum is
exactly 2400. -/
theorem breathe_step_witness :
    sample_breathe.state.current_effect = 1 ∧
    (sample_breathe.state.animation_step ≤ 2400 ∧
      1 ≤ sample_breathe.state.animation_speed ∧ sample_breathe.state.animation_speed ≤ 5) ∧
    sample_breathe.state.animation_step + 10 * sample_breathe.state.animation_speed = 2400 ∧
    (zmk_rgb_underglow_tick sample_cfg sample_breathe).state.animation_step = 2400 ∧
    ∀ n : Nat, (ticks sample_cfg n sample_breathe).state.animation_step ≤ 2400 :=
  ⟨rfl, by decide, by decide,
   (breathe_step sample_cfg sample_breathe rfl (by decide) (by decide) (by decide)).2.1
     (by decide),
   (breathe_step sample_cfg sample_breathe rfl (by decide) (by decide) (by decide)).2.2⟩

/-- Claim C19: the Breathe brightness is symmetric around animation step 1200: for
every k in [0,1200] the brightness at step 1200 - k equals the brightness at step
1200 + k; and for every animation step in [0,2400] the brightness is at most 100
(it is a natural number, so an integer in [0,100]). -/
theorem breathe_brightness_symmetric (st : rgb_underglow_state) (i k step : Nat)
    (hk : k ≤ 1200) (hstep : step ≤ 2400) :
    (breathe_hsb { st with animation_step := 1200 - k } i).b
      = (breathe_hsb { st with animation_step := 1200 + k } i).b ∧
    (breathe_hsb { st with animation_step := step } i).b ≤ 100 := by
  constructor
  · rw [breathe_b_low _ _ (show 1200 - k ≤ 1200 by omega),
      breathe_b_high _ _ (show 1200 ≤ 1200 + k by omega) (show 1200 + k ≤ 2400 by omega)]
    show (1200 - (1200 - k)) / 12 = (1200 + k - 1200) / 12
    omega
  · by_cases h : step ≤ 1200
    · rw [breathe_b_low _ _ (show step ≤ 1200 from h)]
      show (1200 - step) / 12 ≤ 100
      omega
    · rw [breathe_b_high _ _ (show 1200 ≤ step by omega) (show step ≤ 2400 from hstep)]
      show (step - 1200) / 12 ≤ 100
      omega

/-- Witness for C19 at k = 500 (steps 700 and 1700) and at step 2400. -/
theorem breathe_brightness_symmetric_witness :
    ((500 : Nat) ≤ 1200 ∧ (2400 : Nat) ≤ 2400) ∧
    (breathe_hsb { sample_started.state with animation_step := 1200 - 500 } 0).b
      = (breathe_hsb { sample_started.state with animation_step := 1200 + 500 } 0).b ∧
    (breathe_hsb { sample_started.state with animation_step := 2400 } 0).b ≤ 100 :=
  ⟨by decide,
   breathe_brightness_symmetric sample_started.state 0 500 2400 (by decide) (by decide)⟩

/-! ## Bounds kept by the adjustments -/

theorem change_hue_le (cfg : Config) (d : Int) (sys : System)
    (h : sys.led_strip = true ∨ sys.state.hue ≤ 350) :
    (zmk_rgb_underglow_change_hue cfg d sys).2.state.hue ≤ 350 := by
  unfold zmk_rgb_underglow_change_hue
  split_ifs with h1 h2
  · rcases h with h | h
    · simp [h] at h1
    · exact h
  · exact Nat.le_refl _
  · show (if to_u16 _ > 350 then 0 else to_u16 _) ≤ 350
    split_ifs <;> omega

theorem change_sat_le (cfg : Config) (d : Int) (sys : System)
    (h : sys.led_strip = true ∨ sys.state.saturation ≤ 100) :
    (zmk_rgb_underglow_change_sat cfg d sys).2.state.saturation ≤ 100 := by
  unfold zmk_rgb_underglow_change_sat
  split_ifs with h1 h2
  · rcases h with h | h
    · simp [h] at h1
    · exact h
  · show sys.state.saturation ≤ 100
    omega
  · show (if to_u8 _ > 100 then 100 else to_u8 _) ≤ 100
    split_ifs <;> omega

theorem change_brt_le (cfg : Config) (d : Int) (sys : System)
    (h : sys.led_strip = true ∨ sys.state.brightness ≤ 100) :
    (zmk_rgb_underglow_change_brt cfg d sys).2.state.brightness ≤ 100 := by
  unfold zmk_rgb_underglow_change_brt
  split_ifs with h1 h2
  · rcases h with h | h
    · simp [h] at h1
    · exact h
  · show sys.state.brightness ≤ 100
    omega
  · show (if to_u8 _ > 100 then 100 else to_u8 _) ≤ 100
    split_ifs <;> omega

theorem cycle_effect_le (d : Int) (sys : System)
    (h : sys.state.current_effect ≤ 3) :
    (zmk_rgb_underglow_cycle_effect d sys).2.state.current_effect ≤ 3 := by
  unfold zmk_rgb_underglow_cycle_effect
  split_ifs with h1 h2
  · exact h
  · exact Nat.le_refl _
  · show (if to_u8 _ ≥ 4 then 0 else to_u8 _) ≤ 3
    split_ifs <;> omega

/-- Claim C12: with the strip present, for every integer direction, every step
size and every starting state, the hue is at most 350 after `change_hue`, the
saturation at most 100 after `change_sat` and the brightness at most 100 after
`change_brt` (the fields are unsigned, so they are also at least 0). -/
theorem adjustments_stay_bounded (cfg : Config) (direction : Int) (sys : System)
    (hs : sys.led_strip = true) :
    (zmk_rgb_underglow_change_hue cfg direction sys).2.state.hue ≤ 350 ∧
    (zmk_rgb_underglow_change_sat cfg direction sys).2.state.saturation ≤ 100 ∧
    (zmk_rgb_underglow_change_brt cfg direction sys).2.state.brightness ≤ 100 :=
  ⟨change_hue_le cfg direction sys (Or.inl hs),
   change_sat_le cfg direction sys (Or.inl hs),
   change_brt_le cfg direction sys (Or.inl hs)⟩

/-- Witness for C12 at the state after initialisation with direction -7. -/
theorem adjustments_stay_bounded_witness :
    sample_started.led_strip = true ∧
    (zmk_rgb_underglow_change_hue sample_cfg (-7) sample_started).2.state.hue ≤ 350 ∧
    (zmk_rgb_underglow_change_sat sample_cfg (-7) sample_started).2.state.saturation ≤ 100 ∧
    (zmk_rgb_underglow_change_brt sample_cfg (-7) sample_started).2.state.brightness ≤ 100 :=
  ⟨rfl, adjustments_stay_bounded sample_cfg (-7) sample_started rfl⟩

/-- Claim C13 fails on the code: the state after initialisation is reachable and
has speed 3; there `change_spd(-3)` returns 0 and leaves the speed at 0, outside
[1,5]. -/
theorem change_spd_reaches_zero :
    Reachable sample_cfg sample_started ∧
    sample_started.led_strip = true ∧
    sample_started.state.animation_speed = 3 ∧
    (zmk_rgb_underglow_change_spd (-3) sample_started).1 = 0 ∧
    (zmk_rgb_underglow_change_spd (-3) sample_started).2.state.animation_speed = 0 :=
  ⟨Reachable.init true, by decide, by decide, by decide, by decide⟩

/-- Claim C14 fails on the code: under a hue step of 100 the hue 50 is reached from
startup by four calls `change_hue(-1)`; there 50 - 100 is below 0, and a further
`change_hue(-1)` sets the hue to 0, not to 350.  Also, from hue 0 the call
`change_hue(656)` has 0 + 656·100 = 65600 above 350 and sets the hue to 64, not
to 0. -/
theorem change_hue_underflow_resets :
    Reachable coarse_cfg coarse_hue_50 ∧
    coarse_hue_50.led_strip = true ∧
    coarse_hue_50.state.hue = 50 ∧
    (coarse_hue_50.state.hue : Int) + (-1) * coarse_cfg.HUE_STEP < 0 ∧
    (zmk_rgb_underglow_change_hue coarse_cfg (-1) coarse_hue_50).1 = 0 ∧
    (zmk_rgb_underglow_change_hue coarse_cfg (-1) coarse_hue_50).2.state.hue = 0 ∧
    coarse_started.state.hue = 0 ∧
    (coarse_started.state.hue : Int) + 656 * coarse_cfg.HUE_STEP > 350 ∧
    (zmk_rgb_underglow_change_hue coarse_cfg 656 coarse_started).2.state.hue = 64 := by
  refine ⟨?_, by decide, by decide, by decide, by decide, by decide, by decide,
    by decide, by decide⟩
  exact Reachable.change_hue (-1) (Reachable.change_hue (-1)
    (Reachable.change_hue (-1) (Reachable.change_hue (-1) (Reachable.init true))))

/-- Claim C15 fails on the code: under saturation and brightness steps of 30 the
value 10 is reached from startup by three decrements; a further decrement, where
10 - 30 is below 0, sets the value to 100, greater than the value before the call.
Also, from 10 an increment with direction 9 has 10 + 9·30 = 280 and sets the value
to 24, not to min(100, 280) = 100. -/
theorem change_sat_brt_underflow_wraps :
    (Reachable coarse_cfg coarse_sat_10 ∧
      coarse_sat_10.led_strip = true ∧
      coarse_sat_10.state.saturation = 10 ∧
      (zmk_rgb_underglow_change_sat coarse_cfg (-1) coarse_sat_10).2.state.saturation = 100 ∧
      (zmk_rgb_underglow_change_sat coarse_cfg 9 coarse_sat_10).2.state.saturation = 24) ∧
    (Reachable coarse_cfg coarse_brt_10 ∧
      coarse_brt_10.led_strip = true ∧
      coarse_brt_10.state.brightness = 10 ∧
      (zmk_rgb_underglow_change_brt coarse_cfg (-1) coarse_brt_10).2.state.brightness = 100 ∧
      (zmk_rgb_underglow_change_brt coarse_cfg 9 coarse_brt_10).2.state.brightness = 24) := by
  refine ⟨⟨?_, by decide, by decide, by decide, by decide⟩,
    ⟨?_, by decide, by decide, by decide, by decide⟩⟩
  · exact Reachable.change_sat (-1) (Reachable.change_sat (-1)
      (Reachable.change_sat (-1) (Reachable.init true)))
  · exact Reachable.change_brt (-1) (Reachable.change_brt (-1)
      (Reachable.change_brt (-1) (Reachable.init true)))

/-- Claim C16 as stated fails: from Swirl (3), `cycle_effect(+2)` selects Solid (0),
not Breathe (1 = (3 + 2) mod 4); from Breathe (1), `cycle_effect(-2)` selects
Solid (0), not Swirl (3 = (1 - 2) mod 4). -/
theorem cycle_effect_double_step :
    (sample_swirl.led_strip = true ∧ sample_swirl.state.current_effect = 3 ∧
      (zmk_rgb_underglow_cycle_effect 2 sample_swirl).2.state.current_effect = 0 ∧
      ((3 : Int) + 2) % 4 = 1) ∧
    (sample_breathe.led_strip = true ∧ sample_breathe.state.current_effect = 1 ∧
      (zmk_rgb_underglow_cycle_effect (-2) sample_breathe).2.state.current_effect = 0 ∧
      ((1 : Int) + (-2)) % 4 = 3) := by
  decide

/-- Claim C16, amended: with the strip present, for every current effect `e` (in
particular each of the four, 0..3) and every integer direction that moves at most one position past either end
(0 ≤ e + direction ≤ 4, or direction -1 from Solid), in particular for direction
+1 and -1, `cycle_effect(direction)` sets the current effect to
(e + direction) mod 4. -/
theorem cycle_effect_single_step (direction : Int) (sys : System)
    (hs : sys.led_strip = true)
    (hd : (0 ≤ (sys.state.current_effect : Int) + direction ∧
            (sys.state.current_effect : Int) + direction ≤ 4) ∨
          (sys.state.current_effect = 0 ∧ direction = -1)) :
    ((zmk_rgb_underglow_cycle_effect direction sys).2.state.current_effect : Int)
      = ((sys.state.current_effect : Int) + direction) % 4 := by
  unfold zmk_rgb_underglow_cycle_effect
  split_ifs with c1 c2
  · simp [hs] at c1
  · show ((UNDERGLOW_EFFECT_NUMBER - 1 : Nat) : Int) = _
    simp only [UNDERGLOW_EFFECT_NUMBER]
    omega
  · show (((if to_u8 _ ≥ UNDERGLOW_EFFECT_NUMBER then 0 else to_u8 _) : Nat) : Int) = _
    simp only [UNDERGLOW_EFFECT_NUMBER]
    have hr : 0 ≤ (sys.state.current_effect : Int) + direction ∧
        (sys.state.current_effect : Int) + direction ≤ 4 := by
      rcases hd with hd | hd
      · exact hd
      · exact absurd ⟨hd.1, by omega⟩ c2
    split_ifs with c3
    · unfold to_u8 at c3
      omega
    · unfold to_u8 at c3 ⊢
      omega

/-- Witness for the amended C16: direction +1 from Swirl and direction -1 from
Solid. -/
theorem cycle_effect_single_step_witness :
    (sample_swirl.led_strip = true ∧
      (0 ≤ (sample_swirl.state.current_effect : Int) + 1 ∧
        (sample_swirl.state.current_effect : Int) + 1 ≤ 4)) ∧
    ((zmk_rgb_underglow_cycle_effect 1 sample_swirl).2.state.current_effect : Int)
      = ((sample_swirl.state.current_effect : Int) + 1) % 4 ∧
    (sample_started.led_strip = true ∧ sample_started.state.current_effect = 0) ∧
    ((zmk_rgb_underglow_cycle_effect (-1) sample_started).2.state.current_effect : Int)
      = ((sample_started.state.current_effect : Int) + (-1)) % 4 :=
  ⟨by decide,
   cycle_effect_single_step 1 sample_swirl rfl (Or.inl (by decide)),
   by decide,
   cycle_effect_single_step (-1) sample_started rfl (Or.inr (by decide))⟩

/-! ## The domain invariant -/

theorem to_u8_natCast {n : Nat} (h : n < 256) : to_u8 (n : Int) = n := by
  unfold to_u8; omega

theorem to_u16_natCast {n : Nat} (h : n < 65536) : to_u16 (n : Int) = n := by
  unfold to_u16; omega

/-- The hue of the Swirl triple is a remainder modulo 360. -/
theorem swirl_hsb_h_lt (cfg : Config) (st : rgb_underglow_state) (i : Nat) :
    (swirl_hsb cfg st i).h < 360 := by
  have e : Int.tmod (Int.tdiv 360 (cfg.STRIP_NUM_PIXELS : Int) * (i : Int)
      + (st.animation_step : Int)) 360
      = (((360 / cfg.STRIP_NUM_PIXELS * i + st.animation_step) % 360 : Nat) : Int) := by
    have : Int.tdiv 360 (cfg.STRIP_NUM_PIXELS : Int)
        = ((360 / cfg.STRIP_NUM_PIXELS : Nat) : Int) := (Int.ofNat_tdiv 360 _).symm
    rw [this, Int.ofNat_tmod]
    push_cast
    rfl
  simp only [swirl_hsb, mk_hsb, e]
  unfold to_u16
  omega

theorem cycle_effect_inDomain (d : Int) (sys : System) (h : InDomain sys) :
    InDomain (zmk_rgb_underglow_cycle_effect d sys).2 := by
  obtain ⟨h1, h2, h3, h4, h5, h6, h7⟩ := h
  unfold zmk_rgb_underglow_cycle_effect
  split_ifs with c1 c2
  · exact ⟨h1, h2, h3, h4, h5, h6, h7⟩
  · refine ⟨h1, h2, h3, ?_, ?_, ?_, ?_⟩
    · show UNDERGLOW_EFFECT_NUMBER - 1 ≤ 3
      decide
    · intro hc
      change (3 : Nat) = 0 at hc
      omega
    · intro hc
      change (3 : Nat) = 1 at hc
      omega
    · intro _
      show sys.state.animation_step < 360
      rw [h5 c2.1]
      decide
  · refine ⟨h1, h2, h3, ?_, ?_, ?_, ?_⟩
    · show (if to_u8 _ ≥ 4 then 0 else to_u8 _) ≤ 3
      split_ifs <;> omega
    · intro _; rfl
    · intro _; exact Nat.zero_le _
    · intro _
      show (0 : Nat) < 360
      decide

theorem toggle_inDomain (cfg : Config) (sys : System) (h : InDomain sys) :
    InDomain (zmk_rgb_underglow_toggle cfg sys).2 := by
  obtain ⟨h1, h2, h3, h4, h5, h6, h7⟩ := h
  by_cases hs : sys.led_strip = true
  · by_cases ho : sys.state.on_ = true
    · simpa [InDomain, zmk_rgb_underglow_toggle, hs, ho, led_strip_update_rgb]
        using ⟨h1, h2, h3, h4, h5, h6, h7⟩
    · simp [InDomain, zmk_rgb_underglow_toggle, hs, ho, h1, h2, h3, h4]
  · have hs0 : sys.led_strip = false := by simpa using hs
    have e : zmk_rgb_underglow_toggle cfg sys = (-ENODEV, sys) := by
      simp [zmk_rgb_underglow_toggle, hs0]
    rw [e]
    exact ⟨h1, h2, h3, h4, h5, h6, h7⟩

theorem change_hue_inDomain (cfg : Config) (d : Int) (sys : System) (h : InDomain sys) :
    InDomain (zmk_rgb_underglow_change_hue cfg d sys).2 := by
  have hle := change_hue_le cfg d sys (Or.inr h.1)
  obtain ⟨_, h2, h3, h4, h5, h6, h7⟩ := h
  refine ⟨hle, ?_⟩
  unfold zmk_rgb_underglow_change_hue
  split_ifs <;> exact ⟨h2, h3, h4, h5, h6, h7⟩

theorem change_sat_inDomain (cfg : Config) (d : Int) (sys : System) (h : InDomain sys) :
    InDomain (zmk_rgb_underglow_change_sat cfg d sys).2 := by
  have hle := change_sat_le cfg d sys (Or.inr h.2.1)
  obtain ⟨h1, _, h3, h4, h5, h6, h7⟩ := h
  refine ⟨?_, hle, ?_⟩
  · unfold zmk_rgb_underglow_change_sat
    split_ifs <;> exact h1
  · unfold zmk_rgb_underglow_change_sat
    split_ifs <;> exact ⟨h3, h4, h5, h6, h7⟩

theorem change_brt_inDomain (cfg : Config) (d : Int) (sys : System) (h : InDomain sys) :
    InDomain (zmk_rgb_underglow_change_brt cfg d sys).2 := by
  have hle := change_brt_le cfg d sys (Or.inr h.2.2.1)
  obtain ⟨h1, h2, _, h4, h5, h6, h7⟩ := h
  refine ⟨?_, ?_, hle, ?_⟩
  · unfold zmk_rgb_underglow_change_brt
    split_ifs <;> exact h1
  · unfold zmk_rgb_underglow_change_brt
    split_ifs <;> exact h2
  · unfold zmk_rgb_underglow_change_brt
    split_ifs <;> exact ⟨h4, h5, h6, h7⟩

theorem change_spd_inDomain (d : Int) (sys : System) (h : InDomain sys) :
    InDomain (zmk_rgb_underglow_change_spd d sys).2 := by
  obtain ⟨h1, h2, h3, h4, h5, h6, h7⟩ := h
  unfold zmk_rgb_underglow_change_spd
  split_ifs <;> exact ⟨h1, h2, h3, h4, h5, h6, h7⟩

theorem tick_inDomain (cfg : Config) (sys : System) (h : InDomain sys) :
    InDomain (zmk_rgb_underglow_tick cfg sys) := by
  obtain ⟨h1, h2, h3, h4, h5, h6, h7⟩ := h
  have hc : sys.state.current_effect = 0 ∨ sys.state.current_effect = 1 ∨
      sys.state.current_effect = 2 ∨ sys.state.current_effect = 3 := by omega
  rcases hc with hc | hc | hc | hc
  · simp only [zmk_rgb_underglow_tick, hc, led_strip_update_rgb,
      zmk_rgb_underglow_effect_solid]
    exact ⟨h1, h2, h3, h4, h5, h6, h7⟩
  · refine ⟨?_, ?_, ?_, ?_, ?_, ?_, ?_⟩
    · simp only [zmk_rgb_underglow_tick, hc, led_strip_update_rgb,
        zmk_rgb_underglow_effect_breathe]
      exact h1
    · simp only [zmk_rgb_underglow_tick, hc, led_strip_update_rgb,
        zmk_rgb_underglow_effect_breathe]
      exact h2
    · simp only [zmk_rgb_underglow_tick, hc, led_strip_update_rgb,
        zmk_rgb_underglow_effect_breathe]
      exact h3
    · rw [(tick_frame cfg sys).2.2.1]; exact h4
    · rw [(tick_frame cfg sys).2.2.1]; intro hz; omega
    · intro _; exact tick_breathe_step_le cfg sys hc
    · rw [(tick_frame cfg sys).2.2.1]; intro hz; omega
  · refine ⟨?_, ?_, ?_, ?_, ?_, ?_, ?_⟩
    · simp only [zmk_rgb_underglow_tick, hc, led_strip_update_rgb,
        zmk_rgb_underglow_effect_spectrum]
      exact h1
    · simp only [zmk_rgb_underglow_tick, hc, led_strip_update_rgb,
        zmk_rgb_underglow_effect_spectrum]
      exact h2
    · simp only [zmk_rgb_underglow_tick, hc, led_strip_update_rgb,
        zmk_rgb_underglow_effect_spectrum]
      exact h3
    · rw [(tick_frame cfg sys).2.2.1]; exact h4
    · rw [(tick_frame cfg sys).2.2.1]; intro hz; omega
    · rw [(tick_frame cfg sys).2.2.1]; intro hz; omega
    · intro _; exact tick_spectrum_swirl_step_lt cfg sys (Or.inl hc)
  · refine ⟨?_, ?_, ?_, ?_, ?_, ?_, ?_⟩
    · simp only [zmk_rgb_underglow_tick, hc, led_strip_update_rgb,
        zmk_rgb_underglow_effect_swirl]
      exact h1
    · simp only [zmk_rgb_underglow_tick, hc, led_strip_update_rgb,
        zmk_rgb_underglow_effect_swirl]
      exact h2
    · simp only [zmk_rgb_underglow_tick, hc, led_strip_update_rgb,
        zmk_rgb_underglow_effect_swirl]
      exact h3
    · rw [(tick_frame cfg sys).2.2.1]; exact h4
    · rw [(tick_frame cfg sys).2.2.1]; intro hz; omega
    · rw [(tick_frame cfg sys).2.2.1]; intro hz; omega
    · intro _; exact tick_spectrum_swirl_step_lt cfg sys (Or.inr hc)

/-- Every reachable state satisfies the domain invariant. -/
theorem inDomain_of_reachable (cfg : Config) (sys : System) (hr : Reachable cfg sys) :
    InDomain sys := by
  induction hr with
  | init found =>
    cases found
    · simp [InDomain, zmk_rgb_underglow_init, boot]
    · simp [InDomain, zmk_rgb_underglow_init]
  | cycle_effect d _ ih => exact cycle_effect_inDomain d _ ih
  | toggle _ ih => exact toggle_inDomain cfg _ ih
  | change_hue d _ ih => exact change_hue_inDomain cfg d _ ih
  | change_sat d _ ih => exact change_sat_inDomain cfg d _ ih
  | change_brt d _ ih => exact change_brt_inDomain cfg d _ ih
  | change_spd d _ ih => exact change_spd_inDomain d _ ih
  | tick _ _ ih => exact tick_inDomain cfg _ ih

/-- Claim C4: in every state reachable from startup, with the strip present: if
the current effect is the first one (Solid), `cycle_effect(-1)` selects the last
effect (Swirl) and the animation step is 0 afterwards; if the current effect is the
last one (Swirl), `cycle_effect(+1)` selects the first effect (Solid) and the
animation step is 0 afterwards. -/
theorem cycle_effect_wrap (cfg : Config) (sys : System) (hr : Reachable cfg sys)
    (hs : sys.led_strip = true) :
    (sys.state.current_effect = 0 →
      (zmk_rgb_underglow_cycle_effect (-1) sys).2.state.current_effect
          = UNDERGLOW_EFFECT_NUMBER - 1 ∧
      (zmk_rgb_underglow_cycle_effect (-1) sys).2.state.animation_step = 0) ∧
    (sys.state.current_effect = UNDERGLOW_EFFECT_NUMBER - 1 →
      (zmk_rgb_underglow_cycle_effect 1 sys).2.state.current_effect = 0 ∧
      (zmk_rgb_underglow_cycle_effect 1 sys).2.state.animation_step = 0) := by
  obtain ⟨_, _, _, _, h5, _, _⟩ := inDomain_of_reachable cfg sys hr
  constructor
  · intro he
    have ha := h5 he
    simp [zmk_rgb_underglow_cycle_effect, hs, he, ha]
  · intro he
    simp [zmk_rgb_underglow_cycle_effect, hs, he, UNDERGLOW_EFFECT_NUMBER, to_u8]

/-- Witness for C4: the state after initialisation (Solid), and the Swirl state
reached from it by `cycle_effect(-1)`. -/
theorem cycle_effect_wrap_witness :
    (Reachable sample_cfg sample_started ∧
      sample_started.led_strip = true ∧
      sample_started.state.current_effect = 0) ∧
    ((zmk_rgb_underglow_cycle_effect (-1) sample_started).2.state.current_effect
        = UNDERGLOW_EFFECT_NUMBER - 1 ∧
      (zmk_rgb_underglow_cycle_effect (-1) sample_started).2.state.animation_step = 0) ∧
    (Reachable sample_cfg (zmk_rgb_underglow_cycle_effect (-1) sample_started).2 ∧
      (zmk_rgb_underglow_cycle_effect (-1) sample_started).2.led_strip = true ∧
      (zmk_rgb_underglow_cycle_effect (-1) sample_started).2.state.current_effect
        = UNDERGLOW_EFFECT_NUMBER - 1) ∧
    ((zmk_rgb_underglow_cycle_effect 1
        (zmk_rgb_underglow_cycle_effect (-1) sample_started).2).2.state.current_effect = 0 ∧
      (zmk_rgb_underglow_cycle_effect 1
        (zmk_rgb_underglow_cycle_effect (-1) sample_started).2).2.state.animation_step = 0) :=
  ⟨⟨Reachable.init true, rfl, rfl⟩,
   (cycle_effect_wrap sample_cfg sample_started (Reachable.init true) rfl).1 rfl,
   ⟨Reachable.cycle_effect (-1) (Reachable.init true), rfl, rfl⟩,
   (cycle_effect_wrap sample_cfg (zmk_rgb_underglow_cycle_effect (-1) sample_started).2
     (Reachable.cycle_effect (-1) (Reachable.init true)) rfl).2 rfl⟩

theorem mk_hsb_of_range {h s b : Nat} (hh : h < 65536) (hs : s < 256) (hb : b < 256) :
    mk_hsb (h : Int) (s : Int) (b : Int) = { h := h, s := s, b := b } := by
  simp only [mk_hsb, to_u16_natCast hh, to_u8_natCast hs, to_u8_natCast hb]

/-- Claim C17: in every state reachable from startup by adjustment calls (with any
integer direction) and ticks, the selected effect is one of the four, the frame a
tick produces is made of the pixels `hsb_to_rgb_f64 (tick_hsb i)`, and every such HSB
triple, for every pixel and whichever
effect is selected, is inside the domain of the converter: hue below 360,
saturation at most 100, brightness at most 100. -/
theorem tick_hsb_in_domain (cfg : Config) (sys : System) (hr : Reachable cfg sys) :
    sys.state.current_effect ≤ 3 ∧
    (zmk_rgb_underglow_tick cfg sys).pixels
      = fill_pixels cfg.STRIP_NUM_PIXELS
          (fun i => hsb_to_rgb_f64 (tick_hsb cfg sys.state i)) ∧
    ∀ i : Nat, (tick_hsb cfg sys.state i).h < 360 ∧
      (tick_hsb cfg sys.state i).s ≤ 100 ∧ (tick_hsb cfg sys.state i).b ≤ 100 := by
  obtain ⟨h1, h2, h3, h4, h5, h6, h7⟩ := inDomain_of_reachable cfg sys hr
  have hc : sys.state.current_effect = 0 ∨ sys.state.current_effect = 1 ∨
      sys.state.current_effect = 2 ∨ sys.state.current_effect = 3 := by omega
  refine ⟨h4, ?_⟩
  rcases hc with hc | hc | hc | hc
  · refine ⟨?_, fun i => ?_⟩
    · simp only [zmk_rgb_underglow_tick, hc, led_strip_update_rgb,
        zmk_rgb_underglow_effect_solid, tick_hsb]
    · simp only [tick_hsb, hc, solid_hsb,
        mk_hsb_of_range (show sys.state.hue < 65536 by omega)
          (show sys.state.saturation < 256 by omega)
          (show sys.state.brightness < 256 by omega)]
      exact ⟨by omega, h2, h3⟩
  · refine ⟨?_, fun i => ?_⟩
    · simp only [zmk_rgb_underglow_tick, hc, led_strip_update_rgb,
        zmk_rgb_underglow_effect_breathe, tick_hsb]
    · have hstep := h6 hc
      have hb : (breathe_hsb sys.state i).b ≤ 100 := by
        by_cases hl : sys.state.animation_step ≤ 1200
        · rw [breathe_b_low _ _ hl]; omega
        · rw [breathe_b_high _ _ (by omega) hstep]; omega
      have hh : (breathe_hsb sys.state i).h = sys.state.hue := by
        simp only [breathe_hsb, mk_hsb]
        exact to_u16_natCast (by omega)
      have hs : (breathe_hsb sys.state i).s = sys.state.saturation := by
        simp only [breathe_hsb, mk_hsb]
        exact to_u8_natCast (by omega)
      simp only [tick_hsb, hc]
      exact ⟨by omega, by omega, hb⟩
  · refine ⟨?_, fun i => ?_⟩
    · simp only [zmk_rgb_underglow_tick, hc, led_strip_update_rgb,
        zmk_rgb_underglow_effect_spectrum, tick_hsb]
    · have hstep := h7 (by omega)
      simp only [tick_hsb, hc, spectrum_hsb,
        mk_hsb_of_range (show sys.state.animation_step < 65536 by omega)
          (show sys.state.saturation < 256 by omega)
          (show sys.state.brightness < 256 by omega)]
      exact ⟨hstep, h2, h3⟩
  · refine ⟨?_, fun i => ?_⟩
    · simp only [zmk_rgb_underglow_tick, hc, led_strip_update_rgb,
        zmk_rgb_underglow_effect_swirl, tick_hsb]
    · have hs : (swirl_hsb cfg sys.state i).s = sys.state.saturation := by
        simp only [swirl_hsb, mk_hsb]
        exact to_u8_natCast (by omega)
      have hb : (swirl_hsb cfg sys.state i).b = sys.state.brightness := by
        simp only [swirl_hsb, mk_hsb]
        exact to_u8_natCast (by omega)
      simp only [tick_hsb, hc]
      exact ⟨swirl_hsb_h_lt cfg sys.state i, by omega, by omega⟩

/-- Witness for C17: initialisation, a step to the Breathe effect, a decrement of
the brightness by seven steps, and one tick. -/
theorem tick_hsb_in_domain_witness :
    Reachable sample_cfg
      (zmk_rgb_underglow_tick sample_cfg
        (zmk_rgb_underglow_change_brt sample_cfg (-7)
          (zmk_rgb_underglow_cycle_effect 1 sample_started).2).2) ∧
    ∀ i : Nat,
      (tick_hsb sample_cfg
        (zmk_rgb_underglow_tick sample_cfg
          (zmk_rgb_underglow_change_brt sample_cfg (-7)
            (zmk_rgb_underglow_cycle_effect 1 sample_started).2).2).state i).h < 360 ∧
      (tick_hsb sample_cfg
        (zmk_rgb_underglow_tick sample_cfg
          (zmk_rgb_underglow_change_brt sample_cfg (-7)
            (zmk_rgb_underglow_cycle_effect 1 sample_started).2).2).state i).s ≤ 100 ∧
      (tick_hsb sample_cfg
        (zmk_rgb_underglow_tick sample_cfg
          (zmk_rgb_underglow_change_brt sample_cfg (-7)
            (zmk_rgb_underglow_cycle_effect 1 sample_started).2).2).state i).b ≤ 100 :=
  ⟨Reachable.tick (Reachable.change_brt (-7) (Reachable.cycle_effect 1
      (Reachable.init true))) rfl,
   (tick_hsb_in_domain sample_cfg _
     (Reachable.tick (Reachable.change_brt (-7) (Reachable.cycle_effect 1
       (Reachable.init true))) rfl)).2.2⟩

/-- Claim C20: in every state reachable from startup by adjustment calls and ticks,
the animation step is 0 whenever the current effect is Solid; consequently, on
reachable states the animation step is 0 after every `cycle_effect` call that
returns 0, including the call that wraps from the first effect to the last without
executing the reset. -/
theorem solid_step_zero (cfg : Config) (sys : System) (hr : Reachable cfg sys) :
    (sys.state.current_effect = 0 → sys.state.animation_step = 0) ∧
    ∀ d : Int, (zmk_rgb_underglow_cycle_effect d sys).1 = 0 →
      (zmk_rgb_underglow_cycle_effect d sys).2.state.animation_step = 0 := by
  obtain ⟨_, _, _, _, h5, _, _⟩ := inDomain_of_reachable cfg sys hr
  refine ⟨h5, fun d => ?_⟩
  unfold zmk_rgb_underglow_cycle_effect
  split_ifs with c1 c2
  · intro h
    change -ENODEV = 0 at h
    exact absurd h (by decide)
  · intro _
    exact h5 c2.1
  · intro _
    rfl

/-- Witness for C20: the state after initialisation, from which `cycle_effect(-1)`
takes the branch that returns before the reset. -/
theorem solid_step_zero_witness :
    Reachable sample_cfg sample_started ∧
    sample_started.state.current_effect = 0 ∧
    (zmk_rgb_underglow_cycle_effect (-1) sample_started).1 = 0 ∧
    (zmk_rgb_underglow_cycle_effect (-1) sample_started).2.state.current_effect = 3 ∧
    (zmk_rgb_underglow_cycle_effect (-1) sample_started).2.state.animation_step = 0 :=
  ⟨Reachable.init true, rfl, rfl, rfl,
   (solid_step_zero sample_cfg sample_started (Reachable.init true)).2 (-1) rfl⟩

end Underglow
